import Mathlib

/-!
Verification development for the `apollo-container` dependency-injection
container (`src/lib/Container.js`).

Embedding conventions:

* The container's three `Map` fields (`bindings`, `instances`, `aliases`,
  `Container.js` lines 33/41/49) are modelled as association lists keyed by
  `String`, with `setA` modelling `Map.set` (update in place or append),
  `lookupA` modelling `Map.get`/`Map.has`, and `deleteA` modelling
  `Map.delete`.
* JavaScript values handled by the container are modelled by `Value`.
  `Value.undef` models `undefined`, which is also the absence marker the
  parameter resolver returns for unresolvable names (line 313).  Constructed
  objects carry a fresh numeric identity (`Value.obj`), so "same object
  identity" is expressible as plain equality.
* Exceptions are modelled by `Except Err`.  `Err.unknownIdentifier` models
  the `Unknown identifier: ...` errors (lines 74, 175); `Err.typeError`
  models the `TypeError` raised when destructuring `undefined`
  (line 83 when `bindings.get` misses) or setting a property on `undefined`
  (line 184).  `Err.outOfFuel` models nontermination / stack exhaustion of
  the mutual recursion `get -> invoke -> resolveParameters -> get`: the
  evaluator `eval` is fuel-indexed, and a result is only meaningful for the
  actual program when it is not `outOfFuel`.
* Mutations performed before an exception is raised persist, so every
  operation returns `(Except Err _) × State`.
* The textual source of a callable, which the extraction regexes of
  `extractParameterNames` (lines 236-253) classify, is modelled by
  `CallableSource`: each constructor records which capture group is the
  first to match, together with the captured parameter text.  The cleanup
  pipeline applied to the captured text (lines 262-273) is implemented
  character by character.
* `State.log` is ghost instrumentation recording each factory invocation
  and each completed object construction, used to state "invoked exactly
  once" properties.  It affects no control flow.
-/

namespace Container

/-- A JavaScript value as handled by the container.  `undef` models
`undefined` (the absence marker); `obj oid fields` models an object with
identity `oid` whose fields record the named constructor arguments it was
built from (`Reflect.construct`, line 102). -/
inductive Value where
  | undef : Value
  | str : String → Value
  | num : Int → Value
  | obj : Nat → List (String × Value) → Value

/-- Which capture group of the `extractParameterNames` regex alternation
(lines 236-251) is the first to match a callable's source text, together
with the text captured for the parameter list.

* `classCtor`  : `^class .*?constructor\((.*?)\)` (group 1),
* `parenCall`  : `^.*?\((.*?)\)` (group 2, "instance methods" - any source
  whose first parenthesis group is matched here),
* `bareArrow`  : `^(?:async )?(.*?) ?=>` (group 3),
* `parenArrow` : `^\((.*?)\) ?=>` (group 4),
* `functionDecl`: `^function.*?\((.*?)\)` (group 5),
* `unparseable`: no capture group matches (line 255 returns `[]`). -/
inductive CallableSource where
  | classCtor : String → CallableSource
  | parenCall : String → CallableSource
  | bareArrow : String → CallableSource
  | parenArrow : String → CallableSource
  | functionDecl : String → CallableSource
  | unparseable : CallableSource

/-- A constructible class: a numeric tag (for the ghost construction log),
the source text form of the class, and its prototype-chain parent
(`Object.getPrototypeOf`, line 331; `none` means the chain is exhausted). -/
inductive JSClass where
  | decl : Nat → CallableSource → Option JSClass → JSClass

/-- Body of a user-supplied factory function: return a constant, return a
newly allocated object, or return the k-th (auto-wired) argument. -/
inductive FnBody where
  | constV : Value → FnBody
  | fresh : FnBody
  | arg : Nat → FnBody

/-- A factory stored in a binding (line 31).  `ctorF c` models the closure
`() => this.construct(constructor)` created by `bindConstructor`
(line 147); `fnF fid src body` models a user factory registered by
`bindFactory` (line 160), with ghost id `fid` and source text `src`. -/
inductive Factory where
  | ctorF : JSClass → Factory
  | fnF : Nat → CallableSource → FnBody → Factory

/-- A binding: `{factory, singleton}` (lines 146-149, 161-164). -/
structure Binding where
  factory : Factory
  singleton : Bool

/-- Ghost log entries: a factory invocation (`func.apply`, line 123) or a
completed object construction (`Reflect.construct`, line 102). -/
inductive LogEntry where
  | factoryInvoked : Nat → LogEntry
  | constructed : Nat → LogEntry

/-- The container state: the three maps of the constructor (lines 33-49),
plus a fresh-identity counter and the ghost log. -/
structure State where
  bindings : List (String × Binding)
  instances : List (String × Value)
  aliases : List (String × String)
  nextId : Nat
  log : List LogEntry

/-- The state of `new Container()` (lines 23-50). -/
def emptyState : State := ⟨[], [], [], 0, []⟩

/-- Errors: `Unknown identifier` (lines 74, 175), `TypeError` from using
`undefined` as an object (lines 83, 184), and fuel exhaustion standing for
nontermination / stack overflow of the resolution recursion. -/
inductive Err where
  | unknownIdentifier : String → Err
  | typeError : Err
  | outOfFuel : Err

/-- `Map.get` (first entry with the given key). -/
def lookupA {α : Type} : List (String × α) → String → Option α
  | [], _ => none
  | (k, v) :: rest, key => if k = key then some v else lookupA rest key

/-- `Map.set`: replace the first entry with the key, else append. -/
def setA {α : Type} : List (String × α) → String → α → List (String × α)
  | [], key, v => [(key, v)]
  | (k, w) :: rest, key, v =>
      if k = key then (key, v) :: rest else (k, w) :: setA rest key v

/-- `Map.delete`: remove the entries with the given key. -/
def deleteA {α : Type} : List (String × α) → String → List (String × α)
  | [], _ => []
  | (k, v) :: rest, key =>
      if k = key then deleteA rest key else (k, v) :: deleteA rest key

/-- Characters matched by the `\s` class of `.replace(/\s/gm, "")`
(line 268), restricted to ASCII. -/
def isJsWhitespace (c : Char) : Bool :=
  c = ' ' || c = '\t' || c = '\n' || c = '\r' ||
  c = Char.ofNat 11 || c = Char.ofNat 12

/-- `.replace(/\/\/.*$/gm, "")` (line 264): drop everything from `//` to
the end of each line.  The `true` mode means we are inside a line comment. -/
def removeLineCommentsAux : Bool → List Char → List Char
  | _, [] => []
  | false, '/' :: '/' :: rest => removeLineCommentsAux true rest
  | false, c :: rest => c :: removeLineCommentsAux false rest
  | true, '\n' :: rest => '\n' :: removeLineCommentsAux false rest
  | true, _ :: rest => removeLineCommentsAux true rest

/-- Scan for a closing `*/` on the current line (the `.` of
`/\/\*.*?\*\//gm`, line 266, does not match a newline); returns the text
after it. -/
def findBlockCommentEnd : List Char → Option (List Char)
  | [] => none
  | '\n' :: _ => none
  | '*' :: '/' :: rest => some rest
  | _ :: rest => findBlockCommentEnd rest

/-- `.replace(/\/\*.*?\*\//gm, "")` (line 266): repeatedly drop the
shortest `/* ... */` spans within a line.  The fuel argument (the text
length suffices) only bounds the recursion on the shrinking suffix. -/
def removeBlockCommentsAux : Nat → List Char → List Char
  | 0, l => l
  | _ + 1, [] => []
  | fuel + 1, '/' :: '*' :: rest =>
      match findBlockCommentEnd rest with
      | some after => removeBlockCommentsAux fuel after
      | none => '/' :: '*' :: removeBlockCommentsAux fuel rest
  | fuel + 1, c :: rest => c :: removeBlockCommentsAux fuel rest

/-- `.replace(/^\(|\)$/, "")` (line 270): no `g` flag, so only the first
match is removed - a leading `(` if present, otherwise a trailing `)`. -/
def removeEnclosingParen (l : List Char) : List Char :=
  match l with
  | '(' :: rest => rest
  | _ => if l.getLast? = some ')' then l.dropLast else l

/-- `.replace(/=.*?(?=,|$)/g, "")` (line 272): drop from each `=` up to
(not including) the next comma or the end.  `true` mode means we are
inside a default-value expression being dropped. -/
def removeDefaultsAux : Bool → List Char → List Char
  | _, [] => []
  | false, '=' :: rest => removeDefaultsAux true rest
  | false, c :: rest => c :: removeDefaultsAux false rest
  | true, ',' :: rest => ',' :: removeDefaultsAux false rest
  | true, _ :: rest => removeDefaultsAux true rest

/-- `.split(",")` (line 273).  Like JavaScript's `split`, it never returns
an empty list: `""` splits to `[""]`. -/
def splitCommasAux : List Char → List Char → List String
  | [], acc => [String.mk acc.reverse]
  | c :: rest, acc =>
      if c = ',' then String.mk acc.reverse :: splitCommasAux rest []
      else splitCommasAux rest (c :: acc)

/-- The cleanup pipeline applied to the captured parameter text
(lines 262-272), in source order: line comments, block comments,
whitespace, one enclosing parenthesis, default values. -/
def cleanParameterText (s : String) : List Char :=
  removeDefaultsAux false
    (removeEnclosingParen
      (((removeBlockCommentsAux (s.data.length + 1)
          (removeLineCommentsAux false s.data))).filter
        (fun c => !isJsWhitespace c)))

/-- The text captured by the first matching group, or `none` when no
group matches (`parameterMatch` is `null`, line 255). -/
def capturedParameterText : CallableSource → Option String
  | .classCtor t => some t
  | .parenCall t => some t
  | .bareArrow t => some t
  | .parenArrow t => some t
  | .functionDecl t => some t
  | .unparseable => none

/-- `extractParameterNames` (lines 235-274): `[]` when no capture group
matches, otherwise the cleaned captured text split on commas. -/
def extractParameterNames (src : CallableSource) : List String :=
  match capturedParameterText src with
  | none => []
  | some t => splitCommasAux (cleanParameterText t) []

/-- The test `/^class .*?constructor\((.*?)\)/ms.test(...)` of
`firstExplicitConstructor` (line 327) - the same pattern as capture
group 1, i.e. exactly the `classCtor` sources. -/
def isExplicitCtorSource : CallableSource → Bool
  | .classCtor _ => true
  | _ => false

/-- The source text form of a class. -/
def sourceOfClass : JSClass → CallableSource
  | .decl _ src _ => src

/-- The ghost tag of a class. -/
def classId : JSClass → Nat
  | .decl cid _ _ => cid

/-- The prototype-chain walk of `firstExplicitConstructor` (lines 324-332):
the first class in the chain whose source passes the explicit-constructor
test, or `none` when the chain is exhausted. -/
def firstExplicitConstructorAux : JSClass → Option JSClass
  | .decl cid src parent =>
      if isExplicitCtorSource src then some (.decl cid src parent)
      else match parent with
        | some p => firstExplicitConstructorAux p
        | none => none

/-- `firstExplicitConstructor` (lines 323-335): the walk's result, or the
original constructor when no ancestor has an explicit constructor
(line 334). -/
def firstExplicitConstructor (c : JSClass) : JSClass :=
  (firstExplicitConstructorAux c).getD c

/-- The parameter names `construct` uses (line 104):
`extractParameterNames(firstExplicitConstructor(constructor))`. -/
def constructParamNames (c : JSClass) : List String :=
  extractParameterNames (sourceOfClass (firstExplicitConstructor c))

/-- The source text of a factory as seen by `extractParameterNames`.
The `bindConstructor` closure `() => this.construct(constructor)`
(line 147) is matched by capture group 2 (`^.*?\((.*?)\)`), capturing the
empty string - so its "parameter list" is `[""]`. -/
def factorySource : Factory → CallableSource
  | .ctorF _ => .parenCall ""
  | .fnF _ src _ => src

/-- `has` (lines 59-63). -/
def has (st : State) (identifier : String) : Bool :=
  (lookupA st.bindings identifier).isSome ||
  (lookupA st.instances identifier).isSome ||
  (lookupA st.aliases identifier).isSome

/-- `resolveIdentifier` (lines 212-214): `this.aliases.get(identifier) ||
identifier`.  A missing entry yields `undefined` (falsy) and an empty
string target is also falsy, so both fall back to `identifier`. -/
def resolveIdentifier (st : State) (identifier : String) : String :=
  match lookupA st.aliases identifier with
  | some target => if target = "" then identifier else target
  | none => identifier

/-- The `while (this.aliases.has(identifier))` walk of `alias`
(lines 195-197).  `none` means the fuel ran out; with fuel
`aliases.length + 1` that happens exactly when the chain is cyclic, in
which case the JavaScript loop does not terminate. -/
def resolveAliasTarget : Nat → List (String × String) → String → Option String
  | 0, _, _ => none
  | fuel + 1, aliases, identifier =>
      match lookupA aliases identifier with
      | some t => resolveAliasTarget fuel aliases t
      | none => some identifier

/-- `alias` (lines 194-200): walk the existing chain from `identifier`,
then store `alias -> finalTarget`.  `none` models nontermination of the
walk on a cyclic chain. -/
def aliasRegister (st : State) (identifier a : String) : Option State :=
  (resolveAliasTarget (st.aliases.length + 1) st.aliases identifier).map
    (fun t => { st with aliases := setA st.aliases a t })

/-- `bindInstance` (lines 133-135). -/
def bindInstance (st : State) (identifier : String) (v : Value) : State :=
  { st with instances := setA st.instances identifier v }

/-- `bindConstructor` (lines 145-150): stores a binding whose factory is
the closure `() => this.construct(constructor)`. -/
def bindConstructor (st : State) (identifier : String) (c : JSClass)
    (singleton : Bool) : State :=
  { st with bindings := setA st.bindings identifier ⟨.ctorF c, singleton⟩ }

/-- `bindFactory` (lines 160-165). -/
def bindFactory (st : State) (identifier : String) (f : Factory)
    (singleton : Bool) : State :=
  { st with bindings := setA st.bindings identifier ⟨f, singleton⟩ }

/-- `createSingletonFromBinding` (lines 223-226): store the value as an
instance and delete the binding. -/
def createSingletonFromBinding (st : State) (identifier : String) (v : Value) :
    State :=
  { st with instances := setA st.instances identifier v,
            bindings := deleteA st.bindings identifier }

/-- `makeSingleton` (lines 173-185): unknown-identifier check, alias
resolution, no-op when an instance exists, otherwise flip the singleton
flag.  `bindings.get(identifier).singleton = true` on a missing binding
(a dangling alias target) throws a `TypeError`. -/
def makeSingleton (st : State) (identifier : String) : Except Err Unit × State :=
  if has st identifier then
    let id := resolveIdentifier st identifier
    if (lookupA st.instances id).isSome then (.ok (), st)
    else
      match lookupA st.bindings id with
      | some b =>
          (.ok (), { st with bindings := setA st.bindings id ⟨b.factory, true⟩ })
      | none => (.error .typeError, st)
  else (.error (.unknownIdentifier identifier), st)

/-- Run a factory body on the resolved arguments (the call
`func.apply(func, ...)`, line 123, for a user factory).  `fresh`
allocates a new object identity; `arg k` returns the k-th argument
(`undefined` when absent, as in JavaScript). -/
def applyBody (body : FnBody) (args : List Value) (st : State) : Value × State :=
  match body with
  | .constV v => (v, st)
  | .fresh => (Value.obj st.nextId [], { st with nextId := st.nextId + 1 })
  | .arg k => (args.getD k Value.undef, st)

/-- Append a ghost log entry. -/
def appendLog (st : State) (e : LogEntry) : State :=
  { st with log := st.log ++ [e] }

/-- Result of an evaluator task: a single value (`get`/`invoke`/
`construct`/`resolveParameter`) or a list of resolved parameter values
(`resolveParameters`). -/
inductive EvalRes where
  | value : Value → EvalRes
  | values : List Value → EvalRes

/-- The mutually recursive entry points of the container, as one
fuel-indexed evaluator:

* `getT`       : `get` (lines 72-91),
* `invokeT`    : `invoke` (lines 122-124),
* `constructT` : `construct` (lines 101-106),
* `resolveParamsT` : `resolveParameters` (lines 284-286),
* `resolveParamT`  : `resolveParameter` (lines 296-314). -/
inductive Task where
  | getT : String → Task
  | invokeT : Factory → List (String × Value) → Option CallableSource → Task
  | constructT : JSClass → List (String × Value) → Task
  | resolveParamsT : List String → List (String × Value) → Task
  | resolveParamT : String → List (String × Value) → Task

/-- The fuel-indexed evaluator.  Fuel `0` returns `outOfFuel`, modelling
nontermination / stack overflow; every recursive call uses one unit.
State written before an error persists, as JavaScript mutations do across
a `throw`. -/
def eval : Nat → State → Task → Except Err EvalRes × State
  | 0, st, _ => (.error .outOfFuel, st)
  | fuel + 1, st, task =>
    match task with
    | .getT identifier =>
        -- lines 73-75: unknown-identifier check via `has`
        if has st identifier then
          -- line 77: alias resolution (single step)
          let id := resolveIdentifier st identifier
          -- lines 79-81: instance hit
          match lookupA st.instances id with
          | some v => (.ok (.value v), st)
          | none =>
            -- line 83: destructuring `bindings.get(id)`; `undefined` throws
            match lookupA st.bindings id with
            | none => (.error .typeError, st)
            | some b =>
              -- line 84: `this.invoke(factory)`
              match eval fuel st (.invokeT b.factory [] none) with
              | (.ok (.value v), st') =>
                  -- lines 86-88: singleton promotion
                  if b.singleton then
                    (.ok (.value v), createSingletonFromBinding st' id v)
                  else (.ok (.value v), st')
              | (.ok (.values _), st') => (.error .typeError, st')
              | (.error e, st') => (.error e, st')
        else (.error (.unknownIdentifier identifier), st)
    | .invokeT f params sig =>
        -- line 123: extract from `signature ?? func`, resolve, then apply
        let names := extractParameterNames ((sig.getD (factorySource f)))
        match eval fuel st (.resolveParamsT names params) with
        | (.ok (.values args), st') =>
            match f with
            | .ctorF c => eval fuel st' (.constructT c [])
            | .fnF fid _ body =>
                let st2 := appendLog st' (.factoryInvoked fid)
                let r := applyBody body args st2
                (.ok (.value r.1), r.2)
        | (.ok (.value _), st') => (.error .typeError, st')
        | (.error e, st') => (.error e, st')
    | .constructT c params =>
        -- lines 101-106: extract from the first explicit constructor,
        -- resolve, then `Reflect.construct`
        let names := constructParamNames c
        match eval fuel st (.resolveParamsT names params) with
        | (.ok (.values args), st') =>
            (.ok (.value (Value.obj st'.nextId (names.zip args))),
             { st' with nextId := st'.nextId + 1,
                        log := st'.log ++ [.constructed (classId c)] })
        | (.ok (.value _), st') => (.error .typeError, st')
        | (.error e, st') => (.error e, st')
    | .resolveParamsT names params =>
        -- lines 284-286: map `resolveParameter` over the names
        match names with
        | [] => (.ok (.values []), st)
        | n :: rest =>
          match eval fuel st (.resolveParamT n params) with
          | (.ok (.value v), st') =>
              match eval fuel st' (.resolveParamsT rest params) with
              | (.ok (.values vs), st2) => (.ok (.values (v :: vs)), st2)
              | (.ok (.value _), st2) => (.error .typeError, st2)
              | (.error e, st2) => (.error e, st2)
          | (.ok (.values _), st') => (.error .typeError, st')
          | (.error e, st') => (.error e, st')
    | .resolveParamT name params =>
        -- lines 297-299: `if (name in parameters) return parameters[name]`
        match lookupA params name with
        | some v => (.ok (.value v), st)
        | none =>
          -- lines 301-303: `if (this.has(name)) return this.get(name)`
          if has st name then eval fuel st (.getT name)
          -- line 313: `return;` - the absence marker
          else (.ok (.value Value.undef), st)

/-- A call to one of the container's public operations, used to quantify
over call histories. -/
inductive Op where
  | getOp : String → Op
  | constructOp : JSClass → List (String × Value) → Op
  | invokeOp : Factory → List (String × Value) → Option CallableSource → Op
  | bindInstanceOp : String → Value → Op
  | bindConstructorOp : String → JSClass → Bool → Op
  | bindFactoryOp : String → Factory → Bool → Op
  | makeSingletonOp : String → Op
  | aliasOp : String → String → Op

/-- Apply one public operation to the state, keeping whatever state was
reached even when the operation throws.  `none` only for a diverging
`alias` walk. -/
def applyOp (fuel : Nat) (st : State) : Op → Option State
  | .getOp id => some (eval fuel st (.getT id)).2
  | .constructOp c ps => some (eval fuel st (.constructT c ps)).2
  | .invokeOp f ps sig => some (eval fuel st (.invokeT f ps sig)).2
  | .bindInstanceOp id v => some (bindInstance st id v)
  | .bindConstructorOp id c s => some (bindConstructor st id c s)
  | .bindFactoryOp id f s => some (bindFactory st id f s)
  | .makeSingletonOp id => some (makeSingleton st id).2
  | .aliasOp id a => aliasRegister st id a

/-- Apply a call history left to right; `none` when some `alias` call
diverges (nothing after it would execute). -/
def applyOps (fuel : Nat) : State → List Op → Option State
  | st, [] => some st
  | st, op :: rest =>
      match applyOp fuel st op with
      | some st' => applyOps fuel st' rest
      | none => none

/-- Whether a public operation registers `i` as a key of one of the three
maps: `bindInstance(i, _)`, `bindConstructor(i, ...)`, `bindFactory(i,
...)`, or `alias(_, i)` (the stored key of `alias` is its second
argument, line 199). -/
def registersKey (i : String) : Op → Bool
  | .bindInstanceOp j _ => j == i
  | .bindConstructorOp j _ _ => j == i
  | .bindFactoryOp j _ _ => j == i
  | .aliasOp _ a => a == i
  | _ => false

/-- Whether a public operation re-points identifier `i`: rebinding its
instance entry or registering an alias named `i`. -/
def rebindsIdentifier (i : String) : Op → Bool
  | .bindInstanceOp j _ => j == i
  | .aliasOp _ a => a == i
  | _ => false

/-- `i` is a key of none of the three maps. -/
def unregistered (st : State) (i : String) : Prop :=
  lookupA st.bindings i = none ∧ lookupA st.instances i = none ∧
  lookupA st.aliases i = none

@[simp] theorem lookupA_setA_eq {α : Type} (m : List (String × α)) (k : String) (v : α) :
    lookupA (setA m k v) k = some v := by
  induction m with
  | nil => simp [setA, lookupA]
  | cons hd tl ih =>
      obtain ⟨k', v'⟩ := hd
      by_cases h : k' = k <;> simp [setA, lookupA, h, ih]

theorem lookupA_setA_ne {α : Type} (m : List (String × α)) (k k' : String) (v : α)
    (h : k' ≠ k) : lookupA (setA m k v) k' = lookupA m k' := by
  have hk : ¬(k = k') := fun h' => h h'.symm
  induction m with
  | nil => simp [setA, lookupA, hk]
  | cons hd tl ih =>
      obtain ⟨k0, v0⟩ := hd
      by_cases h0 : k0 = k
      · subst h0
        simp [setA, lookupA, hk]
      · simp only [setA, h0, if_false, lookupA]
        by_cases h1 : k0 = k' <;> simp [h1, ih]

@[simp] theorem lookupA_deleteA_eq {α : Type} (m : List (String × α)) (k : String) :
    lookupA (deleteA m k) k = none := by
  induction m with
  | nil => simp [deleteA, lookupA]
  | cons hd tl ih =>
      obtain ⟨k0, v0⟩ := hd
      by_cases h0 : k0 = k <;> simp [deleteA, lookupA, h0, ih]

theorem lookupA_deleteA_ne {α : Type} (m : List (String × α)) (k k' : String)
    (h : k' ≠ k) : lookupA (deleteA m k) k' = lookupA m k' := by
  induction m with
  | nil => simp [deleteA, lookupA]
  | cons hd tl ih =>
      obtain ⟨k0, v0⟩ := hd
      by_cases h0 : k0 = k
      · subst h0
        have hk : ¬(k0 = k') := fun h' => h h'.symm
        simp [deleteA, lookupA, hk, ih]
      · by_cases h1 : k0 = k' <;> simp [deleteA, lookupA, h0, h1, h, ih]

theorem lookupA_deleteA_none {α : Type} (m : List (String × α)) (k k' : String)
    (h : lookupA m k' = none) : lookupA (deleteA m k) k' = none := by
  by_cases hk : k' = k
  · subst hk; simp
  · rw [lookupA_deleteA_ne m k k' hk]; exact h

theorem setA_ne_nil {α : Type} (m : List (String × α)) (k : String) (v : α) :
    setA m k v ≠ [] := by
  cases m with
  | nil => simp [setA]
  | cons hd tl =>
      obtain ⟨k0, v0⟩ := hd
      by_cases h : k0 = k <;> simp [setA, h]

@[simp] theorem applyBody_bindings (b : FnBody) (args : List Value) (st : State) :
    (applyBody b args st).2.bindings = st.bindings := by
  cases b <;> simp [applyBody]

@[simp] theorem applyBody_instances (b : FnBody) (args : List Value) (st : State) :
    (applyBody b args st).2.instances = st.instances := by
  cases b <;> simp [applyBody]

@[simp] theorem applyBody_aliases (b : FnBody) (args : List Value) (st : State) :
    (applyBody b args st).2.aliases = st.aliases := by
  cases b <;> simp [applyBody]

@[simp] theorem applyBody_log (b : FnBody) (args : List Value) (st : State) :
    (applyBody b args st).2.log = st.log := by
  cases b <;> simp [applyBody]

/-- The evaluator never writes the alias map. -/
theorem eval_aliases_eq : ∀ (fuel : Nat) (st : State) (t : Task),
    (eval fuel st t).2.aliases = st.aliases := by
  intro fuel
  induction fuel with
  | zero => intro st t; rfl
  | succ fuel ih =>
    intro st t
    cases t with
    | getT id =>
        by_cases hh : has st id
        · cases hi : lookupA st.instances (resolveIdentifier st id) with
          | some v => simp [eval, hh, hi]
          | none =>
            cases hb : lookupA st.bindings (resolveIdentifier st id) with
            | none => simp [eval, hh, hi, hb]
            | some b =>
              have hinv := ih st (.invokeT b.factory [] none)
              cases hres : eval fuel st (.invokeT b.factory [] none) with
              | mk r st' =>
                rw [hres] at hinv
                simp only [Prod.snd] at hinv
                cases r with
                | ok res =>
                    cases res with
                    | value v =>
                        by_cases hs : b.singleton <;>
                          simp [eval, hh, hi, hb, hres, hs,
                            createSingletonFromBinding, hinv]
                    | values vs => simp [eval, hh, hi, hb, hres, hinv]
                | error e => simp [eval, hh, hi, hb, hres, hinv]
        · simp [eval, hh]
    | invokeT f params sig =>
        have h1 := ih st
          (.resolveParamsT (extractParameterNames (sig.getD (factorySource f))) params)
        cases hres : eval fuel st
            (.resolveParamsT (extractParameterNames (sig.getD (factorySource f))) params) with
        | mk r st' =>
          rw [hres] at h1
          simp only [Prod.snd] at h1
          cases r with
          | ok res =>
              cases res with
              | values args =>
                  cases f with
                  | ctorF c =>
                      have h2 := ih st' (.constructT c [])
                      simp only [eval, hres]
                      rw [h2]
                      exact h1
                  | fnF fid src body =>
                      simp [eval, hres, appendLog, h1]
              | value v => simp [eval, hres, h1]
          | error e => simp [eval, hres, h1]
    | constructT c params =>
        have h1 := ih st (.resolveParamsT (constructParamNames c) params)
        cases hres : eval fuel st (.resolveParamsT (constructParamNames c) params) with
        | mk r st' =>
          rw [hres] at h1
          simp only [Prod.snd] at h1
          cases r with
          | ok res => cases res with
              | values args => simp [eval, hres, h1]
              | value v => simp [eval, hres, h1]
          | error e => simp [eval, hres, h1]
    | resolveParamsT names params =>
        cases names with
        | nil => simp [eval]
        | cons n rest =>
          have h1 := ih st (.resolveParamT n params)
          cases hres : eval fuel st (.resolveParamT n params) with
          | mk r st' =>
            rw [hres] at h1
            simp only [Prod.snd] at h1
            cases r with
            | ok res =>
                cases res with
                | value v =>
                    have h2 := ih st' (.resolveParamsT rest params)
                    cases hres2 : eval fuel st' (.resolveParamsT rest params) with
                    | mk r2 st2 =>
                      rw [hres2] at h2
                      simp only [Prod.snd] at h2
                      cases r2 with
                      | ok res2 => cases res2 with
                          | values vs => simp [eval, hres, hres2, h1, h2]
                          | value v2 => simp [eval, hres, hres2, h1, h2]
                      | error e => simp [eval, hres, hres2, h1, h2]
                | values vs => simp [eval, hres, h1]
            | error e => simp [eval, hres, h1]
    | resolveParamT name params =>
        cases hp : lookupA params name with
        | some v => simp [eval, hp]
        | none =>
          by_cases hh : has st name
          · have h1 := ih st (.getT name)
            simp [eval, hp, hh, h1]
          · simp [eval, hp, hh]

/-- The evaluator never adds a binding: a key absent from the binding map
stays absent (`get` only ever deletes bindings, line 225). -/
theorem eval_bindings_none : ∀ (fuel : Nat) (st : State) (t : Task) (k : String),
    lookupA st.bindings k = none →
    lookupA (eval fuel st t).2.bindings k = none := by
  intro fuel
  induction fuel with
  | zero => intro st t k hk; exact hk
  | succ fuel ih =>
    intro st t k hk
    cases t with
    | getT id =>
        by_cases hh : has st id
        · cases hi : lookupA st.instances (resolveIdentifier st id) with
          | some v => simpa [eval, hh, hi] using hk
          | none =>
            cases hb : lookupA st.bindings (resolveIdentifier st id) with
            | none => simpa [eval, hh, hi, hb] using hk
            | some b =>
              have hinv := ih st (.invokeT b.factory [] none) k hk
              cases hres : eval fuel st (.invokeT b.factory [] none) with
              | mk r st' =>
                rw [hres] at hinv
                simp only [Prod.snd] at hinv
                cases r with
                | ok res =>
                    cases res with
                    | value v =>
                        by_cases hs : b.singleton
                        · simpa [eval, hh, hi, hb, hres, hs,
                            createSingletonFromBinding]
                            using lookupA_deleteA_none _ _ _ hinv
                        · simpa [eval, hh, hi, hb, hres, hs] using hinv
                    | values vs => simpa [eval, hh, hi, hb, hres] using hinv
                | error e => simpa [eval, hh, hi, hb, hres] using hinv
        · simpa [eval, hh] using hk
    | invokeT f params sig =>
        have h1 := ih st
          (.resolveParamsT (extractParameterNames (sig.getD (factorySource f))) params) k hk
        cases hres : eval fuel st
            (.resolveParamsT (extractParameterNames (sig.getD (factorySource f))) params) with
        | mk r st' =>
          rw [hres] at h1
          simp only [Prod.snd] at h1
          cases r with
          | ok res =>
              cases res with
              | values args =>
                  cases f with
                  | ctorF c =>
                      have h2 := ih st' (.constructT c []) k h1
                      simp only [eval, hres]
                      exact h2
                  | fnF fid src body =>
                      simpa [eval, hres, appendLog] using h1
              | value v => simpa [eval, hres] using h1
          | error e => simpa [eval, hres] using h1
    | constructT c params =>
        have h1 := ih st (.resolveParamsT (constructParamNames c) params) k hk
        cases hres : eval fuel st (.resolveParamsT (constructParamNames c) params) with
        | mk r st' =>
          rw [hres] at h1
          simp only [Prod.snd] at h1
          cases r with
          | ok res => cases res with
              | values args => simpa [eval, hres] using h1
              | value v => simpa [eval, hres] using h1
          | error e => simpa [eval, hres] using h1
    | resolveParamsT names params =>
        cases names with
        | nil => simpa [eval] using hk
        | cons n rest =>
          have h1 := ih st (.resolveParamT n params) k hk
          cases hres : eval fuel st (.resolveParamT n params) with
          | mk r st' =>
            rw [hres] at h1
            simp only [Prod.snd] at h1
            cases r with
            | ok res =>
                cases res with
                | value v =>
                    have h2 := ih st' (.resolveParamsT rest params) k h1
                    cases hres2 : eval fuel st' (.resolveParamsT rest params) with
                    | mk r2 st2 =>
                      rw [hres2] at h2
                      simp only [Prod.snd] at h2
                      cases r2 with
                      | ok res2 => cases res2 with
                          | values vs => simpa [eval, hres, hres2] using h2
                          | value v2 => simpa [eval, hres, hres2] using h2
                      | error e => simpa [eval, hres, hres2] using h2
                | values vs => simpa [eval, hres] using h1
            | error e => simpa [eval, hres] using h1
    | resolveParamT name params =>
        cases hp : lookupA params name with
        | some v => simpa [eval, hp] using hk
        | none =>
          by_cases hh : has st name
          · have h1 := ih st (.getT name) k hk
            simpa [eval, hp, hh] using h1
          · simpa [eval, hp, hh] using hk

/-- The evaluator preserves every existing instance entry: singleton
promotion (line 224) only writes a key that had no instance at the time
`get` checked it. -/
theorem eval_instances_some : ∀ (fuel : Nat) (st : State) (t : Task) (k : String)
    (v : Value), lookupA st.instances k = some v →
    lookupA (eval fuel st t).2.instances k = some v := by
  intro fuel
  induction fuel with
  | zero => intro st t k v hk; exact hk
  | succ fuel ih =>
    intro st t k v hk
    cases t with
    | getT id =>
        by_cases hh : has st id
        · cases hi : lookupA st.instances (resolveIdentifier st id) with
          | some v0 => simpa [eval, hh, hi] using hk
          | none =>
            cases hb : lookupA st.bindings (resolveIdentifier st id) with
            | none => simpa [eval, hh, hi, hb] using hk
            | some b =>
              have hne : k ≠ resolveIdentifier st id := by
                intro h
                rw [h, hi] at hk
                exact Option.noConfusion hk
              have hinv := ih st (.invokeT b.factory [] none) k v hk
              cases hres : eval fuel st (.invokeT b.factory [] none) with
              | mk r st' =>
                rw [hres] at hinv
                simp only [Prod.snd] at hinv
                cases r with
                | ok res =>
                    cases res with
                    | value v0 =>
                        by_cases hs : b.singleton
                        · simp only [eval, hh, hi, hb, hres, hs,
                            createSingletonFromBinding, if_true]
                          simpa [lookupA_setA_ne _ _ _ _ hne] using hinv
                        · simpa [eval, hh, hi, hb, hres, hs] using hinv
                    | values vs => simpa [eval, hh, hi, hb, hres] using hinv
                | error e => simpa [eval, hh, hi, hb, hres] using hinv
        · simpa [eval, hh] using hk
    | invokeT f params sig =>
        have h1 := ih st
          (.resolveParamsT (extractParameterNames (sig.getD (factorySource f))) params) k v hk
        cases hres : eval fuel st
            (.resolveParamsT (extractParameterNames (sig.getD (factorySource f))) params) with
        | mk r st' =>
          rw [hres] at h1
          simp only [Prod.snd] at h1
          cases r with
          | ok res =>
              cases res with
              | values args =>
                  cases f with
                  | ctorF c =>
                      have h2 := ih st' (.constructT c []) k v h1
                      simp only [eval, hres]
                      exact h2
                  | fnF fid src body =>
                      simpa [eval, hres, appendLog] using h1
              | value v0 => simpa [eval, hres] using h1
          | error e => simpa [eval, hres] using h1
    | constructT c params =>
        have h1 := ih st (.resolveParamsT (constructParamNames c) params) k v hk
        cases hres : eval fuel st (.resolveParamsT (constructParamNames c) params) with
        | mk r st' =>
          rw [hres] at h1
          simp only [Prod.snd] at h1
          cases r with
          | ok res => cases res with
              | values args => simpa [eval, hres] using h1
              | value v0 => simpa [eval, hres] using h1
          | error e => simpa [eval, hres] using h1
    | resolveParamsT names params =>
        cases names with
        | nil => simpa [eval] using hk
        | cons n rest =>
          have h1 := ih st (.resolveParamT n params) k v hk
          cases hres : eval fuel st (.resolveParamT n params) with
          | mk r st' =>
            rw [hres] at h1
            simp only [Prod.snd] at h1
            cases r with
            | ok res =>
                cases res with
                | value v0 =>
                    have h2 := ih st' (.resolveParamsT rest params) k v h1
                    cases hres2 : eval fuel st' (.resolveParamsT rest params) with
                    | mk r2 st2 =>
                      rw [hres2] at h2
                      simp only [Prod.snd] at h2
                      cases r2 with
                      | ok res2 => cases res2 with
                          | values vs => simpa [eval, hres, hres2] using h2
                          | value v2 => simpa [eval, hres, hres2] using h2
                      | error e => simpa [eval, hres, hres2] using h2
                | values vs => simpa [eval, hres] using h1
            | error e => simpa [eval, hres] using h1
    | resolveParamT name params =>
        cases hp : lookupA params name with
        | some v0 => simpa [eval, hp] using hk
        | none =>
          by_cases hh : has st name
          · have h1 := ih st (.getT name) k v hk
            simpa [eval, hp, hh] using h1
          · simpa [eval, hp, hh] using hk

/-- The evaluator never creates an instance for a key that has neither a
binding nor an instance: promotion (line 224) only writes keys found in
the binding map (line 83). -/
theorem eval_instances_none : ∀ (fuel : Nat) (st : State) (t : Task) (k : String),
    lookupA st.bindings k = none → lookupA st.instances k = none →
    lookupA (eval fuel st t).2.instances k = none := by
  intro fuel
  induction fuel with
  | zero => intro st t k _ hik; exact hik
  | succ fuel ih =>
    intro st t k hbk hik
    cases t with
    | getT id =>
        by_cases hh : has st id
        · cases hi : lookupA st.instances (resolveIdentifier st id) with
          | some v => simpa [eval, hh, hi] using hik
          | none =>
            cases hb : lookupA st.bindings (resolveIdentifier st id) with
            | none => simpa [eval, hh, hi, hb] using hik
            | some b =>
              have hne : k ≠ resolveIdentifier st id := by
                intro h
                rw [h, hb] at hbk
                exact Option.noConfusion hbk
              have hinv := ih st (.invokeT b.factory [] none) k hbk hik
              cases hres : eval fuel st (.invokeT b.factory [] none) with
              | mk r st' =>
                rw [hres] at hinv
                simp only [Prod.snd] at hinv
                cases r with
                | ok res =>
                    cases res with
                    | value v0 =>
                        by_cases hs : b.singleton
                        · simp only [eval, hh, hi, hb, hres, hs,
                            createSingletonFromBinding, if_true]
                          simpa [lookupA_setA_ne _ _ _ _ hne] using hinv
                        · simpa [eval, hh, hi, hb, hres, hs] using hinv
                    | values vs => simpa [eval, hh, hi, hb, hres] using hinv
                | error e => simpa [eval, hh, hi, hb, hres] using hinv
        · simpa [eval, hh] using hik
    | invokeT f params sig =>
        have hbk' := eval_bindings_none fuel st
          (.resolveParamsT (extractParameterNames (sig.getD (factorySource f))) params) k hbk
        have h1 := ih st
          (.resolveParamsT (extractParameterNames (sig.getD (factorySource f))) params) k hbk hik
        cases hres : eval fuel st
            (.resolveParamsT (extractParameterNames (sig.getD (factorySource f))) params) with
        | mk r st' =>
          rw [hres] at h1 hbk'
          simp only [Prod.snd] at h1 hbk'
          cases r with
          | ok res =>
              cases res with
              | values args =>
                  cases f with
                  | ctorF c =>
                      have h2 := ih st' (.constructT c []) k hbk' h1
                      simp only [eval, hres]
                      exact h2
                  | fnF fid src body =>
                      simpa [eval, hres, appendLog] using h1
              | value v0 => simpa [eval, hres] using h1
          | error e => simpa [eval, hres] using h1
    | constructT c params =>
        have h1 := ih st (.resolveParamsT (constructParamNames c) params) k hbk hik
        cases hres : eval fuel st (.resolveParamsT (constructParamNames c) params) with
        | mk r st' =>
          rw [hres] at h1
          simp only [Prod.snd] at h1
          cases r with
          | ok res => cases res with
              | values args => simpa [eval, hres] using h1
              | value v0 => simpa [eval, hres] using h1
          | error e => simpa [eval, hres] using h1
    | resolveParamsT names params =>
        cases names with
        | nil => simpa [eval] using hik
        | cons n rest =>
          have hbk' := eval_bindings_none fuel st (.resolveParamT n params) k hbk
          have h1 := ih st (.resolveParamT n params) k hbk hik
          cases hres : eval fuel st (.resolveParamT n params) with
          | mk r st' =>
            rw [hres] at h1 hbk'
            simp only [Prod.snd] at h1 hbk'
            cases r with
            | ok res =>
                cases res with
                | value v0 =>
                    have h2 := ih st' (.resolveParamsT rest params) k hbk' h1
                    cases hres2 : eval fuel st' (.resolveParamsT rest params) with
                    | mk r2 st2 =>
                      rw [hres2] at h2
                      simp only [Prod.snd] at h2
                      cases r2 with
                      | ok res2 => cases res2 with
                          | values vs => simpa [eval, hres, hres2] using h2
                          | value v2 => simpa [eval, hres, hres2] using h2
                      | error e => simpa [eval, hres, hres2] using h2
                | values vs => simpa [eval, hres] using h1
            | error e => simpa [eval, hres] using h1
    | resolveParamT name params =>
        cases hp : lookupA params name with
        | some v0 => simpa [eval, hp] using hik
        | none =>
          by_cases hh : has st name
          · have h1 := ih st (.getT name) k hbk hik
            simpa [eval, hp, hh] using h1
          · simpa [eval, hp, hh] using hik

/-- A public operation that does not register `i` keeps `i` unregistered. -/
theorem applyOp_unregistered (fuel : Nat) (st st' : State) (op : Op) (i : String)
    (hu : unregistered st i) (hreg : registersKey i op = false)
    (happ : applyOp fuel st op = some st') : unregistered st' i := by
  obtain ⟨hb, hi, ha⟩ := hu
  cases op with
  | getOp id =>
      obtain rfl : (eval fuel st (.getT id)).2 = st' := by
        simpa [applyOp] using happ
      exact ⟨eval_bindings_none fuel st _ i hb,
        eval_instances_none fuel st _ i hb hi,
        by rw [eval_aliases_eq]; exact ha⟩
  | constructOp c ps =>
      obtain rfl : (eval fuel st (.constructT c ps)).2 = st' := by
        simpa [applyOp] using happ
      exact ⟨eval_bindings_none fuel st _ i hb,
        eval_instances_none fuel st _ i hb hi,
        by rw [eval_aliases_eq]; exact ha⟩
  | invokeOp f ps sig =>
      obtain rfl : (eval fuel st (.invokeT f ps sig)).2 = st' := by
        simpa [applyOp] using happ
      exact ⟨eval_bindings_none fuel st _ i hb,
        eval_instances_none fuel st _ i hb hi,
        by rw [eval_aliases_eq]; exact ha⟩
  | bindInstanceOp j v =>
      have hne : i ≠ j := by
        intro h
        simp [registersKey, h] at hreg
      obtain rfl : bindInstance st j v = st' := by simpa [applyOp] using happ
      exact ⟨hb, by simpa [bindInstance, lookupA_setA_ne _ _ _ _ hne] using hi, ha⟩
  | bindConstructorOp j c s =>
      have hne : i ≠ j := by
        intro h
        simp [registersKey, h] at hreg
      obtain rfl : bindConstructor st j c s = st' := by simpa [applyOp] using happ
      exact ⟨by simpa [bindConstructor, lookupA_setA_ne _ _ _ _ hne] using hb, hi, ha⟩
  | bindFactoryOp j f s =>
      have hne : i ≠ j := by
        intro h
        simp [registersKey, h] at hreg
      obtain rfl : bindFactory st j f s = st' := by simpa [applyOp] using happ
      exact ⟨by simpa [bindFactory, lookupA_setA_ne _ _ _ _ hne] using hb, hi, ha⟩
  | makeSingletonOp id =>
      obtain rfl : (makeSingleton st id).2 = st' := by simpa [applyOp] using happ
      by_cases hh : has st id
      · by_cases hinst : (lookupA st.instances (resolveIdentifier st id)).isSome
        · simpa [makeSingleton, hh, hinst] using ⟨hb, hi, ha⟩
        · cases hbind : lookupA st.bindings (resolveIdentifier st id) with
          | some b =>
              have hne : i ≠ resolveIdentifier st id := by
                intro h
                rw [← h, hb] at hbind
                exact Option.noConfusion hbind
              simp only [makeSingleton, hh, hinst, hbind, if_true, if_false,
                Bool.false_eq_true]
              exact ⟨by simpa [lookupA_setA_ne _ _ _ _ hne] using hb, hi, ha⟩
          | none => simpa [makeSingleton, hh, hinst, hbind] using ⟨hb, hi, ha⟩
      · simpa [makeSingleton, hh] using ⟨hb, hi, ha⟩
  | aliasOp x a =>
      have hne : i ≠ a := by
        intro h
        simp [registersKey, h] at hreg
      simp only [applyOp, aliasRegister] at happ
      cases hres : resolveAliasTarget (st.aliases.length + 1) st.aliases x with
      | none => rw [hres] at happ; exact Option.noConfusion happ
      | some t =>
          rw [hres] at happ
          rw [Option.map_some'] at happ
          obtain rfl := Option.some.inj happ
          exact ⟨hb, hi, by simpa [lookupA_setA_ne _ _ _ _ hne] using ha⟩

/-- A history with no operation registering `i` keeps `i` unregistered. -/
theorem applyOps_unregistered (fuel : Nat) : ∀ (ops : List Op) (st st' : State)
    (i : String), unregistered st i →
    ops.all (fun op => !registersKey i op) = true →
    applyOps fuel st ops = some st' → unregistered st' i := by
  intro ops
  induction ops with
  | nil =>
      intro st st' i hu _ happ
      obtain rfl : st = st' := by simpa [applyOps] using happ
      exact hu
  | cons op rest ih =>
      intro st st' i hu hall happ
      simp only [List.all_cons, Bool.and_eq_true] at hall
      simp only [applyOps] at happ
      cases hop : applyOp fuel st op with
      | none => rw [hop] at happ; exact Option.noConfusion happ
      | some st1 =>
          rw [hop] at happ
          exact ih st1 st' i
            (applyOp_unregistered fuel st st1 op i hu
              (by simpa using hall.1) hop)
            hall.2 happ

/-- C1: for every identifier `i` that was never registered - no
`bindInstance`, `bindConstructor`, `bindFactory` call keyed by `i` and no
`alias` call storing `i` as the alias name, starting from a fresh
container - `has i` returns `false`, and both `get i` and
`makeSingleton i` fail with the unknown-identifier error, leaving the
state unchanged; no other outcome is possible for unregistered
identifiers. -/
theorem unregistered_identifier_fails
    (ops : List Op) (fuel fuel2 : Nat) (i : String) (st : State)
    (hrun : applyOps fuel emptyState ops = some st)
    (hreg : ops.all (fun op => !registersKey i op) = true) :
    has st i = false ∧
    eval (fuel2 + 1) st (.getT i) = (.error (.unknownIdentifier i), st) ∧
    makeSingleton st i = (.error (.unknownIdentifier i), st) := by
  have hu : unregistered st i :=
    applyOps_unregistered fuel ops emptyState st i ⟨rfl, rfl, rfl⟩ hreg hrun
  obtain ⟨hb, hi, ha⟩ := hu
  have hhas : has st i = false := by simp [has, hb, hi, ha]
  refine ⟨hhas, ?_, ?_⟩
  · simp [eval, hhas]
  · simp [makeSingleton, hhas]

theorem unregistered_identifier_fails_witness :
    has (⟨[], [("a", .num 1)], [("b", "a")], 0, []⟩ : State) "c" = false ∧
    eval 1 (⟨[], [("a", .num 1)], [("b", "a")], 0, []⟩ : State) (.getT "c") =
      (.error (.unknownIdentifier "c"),
       (⟨[], [("a", .num 1)], [("b", "a")], 0, []⟩ : State)) ∧
    makeSingleton (⟨[], [("a", .num 1)], [("b", "a")], 0, []⟩ : State) "c" =
      (.error (.unknownIdentifier "c"),
       (⟨[], [("a", .num 1)], [("b", "a")], 0, []⟩ : State)) :=
  unregistered_identifier_fails
    [.bindInstanceOp "a" (.num 1), .aliasOp "a" "b"] 5 0 "c"
    (⟨[], [("a", .num 1)], [("b", "a")], 0, []⟩ : State) rfl rfl

/-- C3: for every parameter name, explicit-parameters map and container
state, `resolveParameter` (1) returns the explicit value when the name is
a key of the map - even when that value is the absence marker `undef`,
(2) otherwise delegates to `get` when `has` holds, (3) otherwise returns
the absence marker without error; in particular `construct` with an
explicit parameter `{x: W}` yields the field `(x, W)` even when the
container has `x` bound to some `V`. -/
theorem resolve_parameter_precedence :
    (∀ (fuel : Nat) (st : State) (name : String) (params : List (String × Value))
       (v : Value), lookupA params name = some v →
       eval (fuel + 1) st (.resolveParamT name params) = (.ok (.value v), st)) ∧
    (∀ (fuel : Nat) (st : State) (name : String) (params : List (String × Value)),
       lookupA params name = none → has st name = true →
       eval (fuel + 1) st (.resolveParamT name params) = eval fuel st (.getT name)) ∧
    (∀ (fuel : Nat) (st : State) (name : String) (params : List (String × Value)),
       lookupA params name = none → has st name = false →
       eval (fuel + 1) st (.resolveParamT name params) = (.ok (.value .undef), st)) ∧
    (∀ (fuel : Nat) (st : State) (cid : Nat) (xt x : String) (W V : Value),
       extractParameterNames (.classCtor xt) = [x] →
       lookupA st.instances x = some V →
       eval (fuel + 1 + 1 + 1) st
           (.constructT (.decl cid (.classCtor xt) none) [(x, W)]) =
         (.ok (.value (.obj st.nextId [(x, W)])),
          { st with nextId := st.nextId + 1,
                    log := st.log ++ [.constructed cid] })) := by
  refine ⟨?_, ?_, ?_, ?_⟩
  · intro fuel st name params v hp
    simp [eval, hp]
  · intro fuel st name params hp hh
    simp [eval, hp, hh]
  · intro fuel st name params hp hh
    simp [eval, hp, hh]
  · intro fuel st cid xt x W V hx hV
    have h1 : constructParamNames (.decl cid (.classCtor xt) none) = [x] := by
      simp [constructParamNames, firstExplicitConstructor,
        firstExplicitConstructorAux, isExplicitCtorSource, sourceOfClass, hx]
    simp [eval, h1, classId, lookupA]

theorem resolve_parameter_precedence_witness :
    eval 1 emptyState (.resolveParamT "x" [("x", .undef)]) =
      (.ok (.value .undef), emptyState) ∧
    eval 1 (bindInstance emptyState "y" (.num 2)) (.resolveParamT "y" []) =
      eval 0 (bindInstance emptyState "y" (.num 2)) (.getT "y") ∧
    eval 1 emptyState (.resolveParamT "z" []) =
      (.ok (.value .undef), emptyState) ∧
    eval 3 (bindInstance emptyState "x" (.num 9))
        (.constructT (.decl 7 (.classCtor "x") none) [("x", .str "w")]) =
      (.ok (.value (.obj 0 [("x", .str "w")])),
       { bindInstance emptyState "x" (.num 9) with
           nextId := 1, log := [.constructed 7] }) :=
  ⟨resolve_parameter_precedence.1 0 emptyState "x" [("x", .undef)] .undef rfl,
   resolve_parameter_precedence.2.1 0 (bindInstance emptyState "y" (.num 2)) "y" []
     rfl rfl,
   resolve_parameter_precedence.2.2.1 0 emptyState "z" [] rfl rfl,
   resolve_parameter_precedence.2.2.2 0 (bindInstance emptyState "x" (.num 9)) 7
     "x" "x" (.str "w") (.num 9) rfl rfl⟩

/-- C9: signature extraction never raises: it is a total function on
callable sources, an unparseable source yields the empty parameter list
(line 255), and construction / invocation then proceed with zero
auto-wired arguments. -/
theorem extraction_failure_silent :
    extractParameterNames .unparseable = [] ∧
    (∀ (fuel : Nat) (st : State) (cid : Nat),
      eval (fuel + 1 + 1) st (.constructT (.decl cid .unparseable none) []) =
        (.ok (.value (.obj st.nextId [])),
         { st with nextId := st.nextId + 1,
                   log := st.log ++ [.constructed cid] })) ∧
    (∀ (fuel : Nat) (st : State) (fid : Nat) (v : Value),
      eval (fuel + 1 + 1) st (.invokeT (.fnF fid .unparseable (.constV v)) [] none) =
        (.ok (.value v), appendLog st (.factoryInvoked fid))) := by
  refine ⟨rfl, ?_, ?_⟩
  · intro fuel st cid
    simp [eval, constructParamNames, firstExplicitConstructor,
      firstExplicitConstructorAux, isExplicitCtorSource, sourceOfClass,
      extractParameterNames, capturedParameterText, classId]
  · intro fuel st fid v
    simp [eval, extractParameterNames, capturedParameterText, factorySource,
      applyBody, appendLog]

/-- C10 (amended): whenever the alias map sends `a` to a non-empty target
`t` that is a key of neither the binding map nor the instance map,
`has a` returns `true`, yet `get a` raises `TypeError` - an error other
than the unknown-identifier error - instead of returning a value.  (For
an empty-string target the `|| identifier` fallback of
`resolveIdentifier` resolves `a` to itself, so the claim as stated can
fail; see the counterexample.) -/
theorem dangling_alias_type_error
    (fuel : Nat) (st : State) (a t : String)
    (ha : lookupA st.aliases a = some t) (hne : t ≠ "")
    (hb : lookupA st.bindings t = none) (hi : lookupA st.instances t = none) :
    has st a = true ∧
    eval (fuel + 1) st (.getT a) = (.error .typeError, st) := by
  have hhas : has st a = true := by simp [has, ha]
  have hres : resolveIdentifier st a = t := by simp [resolveIdentifier, ha, hne]
  exact ⟨hhas, by simp [eval, hhas, hres, hb, hi]⟩

theorem dangling_alias_type_error_witness :
    has (⟨[], [], [("a", "t")], 0, []⟩ : State) "a" = true ∧
    eval 1 (⟨[], [], [("a", "t")], 0, []⟩ : State) (.getT "a") =
      (.error .typeError, (⟨[], [], [("a", "t")], 0, []⟩ : State)) :=
  dangling_alias_type_error 0 (⟨[], [], [("a", "t")], 0, []⟩ : State) "a" "t"
    rfl (by decide) rfl rfl

theorem dangling_alias_returns_value_cex :
    applyOps 5 emptyState [.bindInstanceOp "a" (.num 1), .aliasOp "" "a"] =
      some (⟨[], [("a", .num 1)], [("a", "")], 0, []⟩ : State) ∧
    lookupA (⟨[], [("a", .num 1)], [("a", "")], 0, []⟩ : State).aliases "a" =
      some "" ∧
    lookupA (⟨[], [("a", .num 1)], [("a", "")], 0, []⟩ : State).bindings "" =
      none ∧
    lookupA (⟨[], [("a", .num 1)], [("a", "")], 0, []⟩ : State).instances "" =
      none ∧
    (eval 5 (⟨[], [("a", .num 1)], [("a", "")], 0, []⟩ : State) (.getT "a")).1 =
      .ok (.value (.num 1)) :=
  ⟨rfl, rfl, rfl, rfl, rfl⟩

/-- A terminating alias-chain walk always ends at a non-key of the alias
map (the `while` loop of line 195 exits only when `aliases.has` fails). -/
theorem resolveAliasTarget_some_not_key :
    ∀ (fuel : Nat) (aliases : List (String × String)) (x t : String),
    resolveAliasTarget fuel aliases x = some t → lookupA aliases t = none := by
  intro fuel
  induction fuel with
  | zero => intro aliases x t h; exact Option.noConfusion h
  | succ fuel ih =>
      intro aliases x t h
      simp only [resolveAliasTarget] at h
      cases hx : lookupA aliases x with
      | some y => rw [hx] at h; exact ih aliases y t h
      | none => rw [hx] at h; obtain rfl := Option.some.inj h; exact hx

/-- C8 (amended): `alias` flattens at write time - when the chain walk
from `identifier` terminates, the stored target is not a key of the alias
map as it stood before the write, and the write adds exactly the entry
`aliasName -> target`.  The claimed global invariant (no stored alias
value is itself an alias key, for every reachable state) does not hold:
a later `alias` call whose alias name equals a previously stored value
breaks it (see the counterexample). -/
theorem alias_flattens_at_write
    (st : State) (identifier aliasName t : String)
    (hw : resolveAliasTarget (st.aliases.length + 1) st.aliases identifier =
      some t) :
    aliasRegister st identifier aliasName =
      some { st with aliases := setA st.aliases aliasName t } ∧
    lookupA st.aliases t = none :=
  ⟨by simp [aliasRegister, hw],
   resolveAliasTarget_some_not_key _ _ _ _ hw⟩

theorem alias_flattens_at_write_witness :
    aliasRegister (⟨[], [], [("b", "c")], 0, []⟩ : State) "b" "d" =
      some (⟨[], [], [("b", "c"), ("d", "c")], 0, []⟩ : State) ∧
    lookupA [("b", "c")] "c" = none :=
  alias_flattens_at_write (⟨[], [], [("b", "c")], 0, []⟩ : State) "b" "d" "c" rfl

theorem alias_value_becomes_key_cex :
    applyOps 5 emptyState [.aliasOp "a" "b", .aliasOp "x" "a"] =
      some (⟨[], [], [("b", "a"), ("a", "x")], 0, []⟩ : State) ∧
    lookupA (⟨[], [], [("b", "a"), ("a", "x")], 0, []⟩ : State).aliases "b" =
      some "a" ∧
    lookupA (⟨[], [], [("b", "a"), ("a", "x")], 0, []⟩ : State).aliases "a" =
      some "x" ∧
    resolveIdentifier (⟨[], [], [("b", "a"), ("a", "x")], 0, []⟩ : State) "b" =
      "a" ∧
    lookupA (⟨[], [], [("b", "a"), ("a", "x")], 0, []⟩ : State).bindings "a" =
      none ∧
    lookupA (⟨[], [], [("b", "a"), ("a", "x")], 0, []⟩ : State).instances "a" =
      none :=
  ⟨rfl, rfl, rfl, rfl, rfl, rfl⟩

/-- Two identifiers that both pass the `has` check and resolve (one alias
step, line 77) to the same root are handled identically by `get`. -/
theorem get_congr (fuel : Nat) (st : State) (x y : String)
    (hx : has st x = true) (hy : has st y = true)
    (hres : resolveIdentifier st x = resolveIdentifier st y) :
    eval (fuel + 1) st (.getT x) = eval (fuel + 1) st (.getT y) := by
  simp only [eval, hx, hy, if_true, hres]

/-- C5 (amended): after `alias(a, b)` then `alias(b, c)` (both walks
terminating), provided `a` is itself not an alias key, differs from `b`
and `c`, is non-empty, and is registered, `has c` returns `true` and
`get c` behaves exactly as `get a`.  Without the provisos the claim
fails: `get` resolves aliases by a single step only, so when `a` heads a
longer chain `get a` and `get c` can reach different targets (see the
counterexample). -/
theorem alias_transitive_flattening
    (fuel : Nat) (st0 st1 st2 : State) (a b c : String)
    (h1 : aliasRegister st0 a b = some st1)
    (h2 : aliasRegister st1 b c = some st2)
    (ha : lookupA st0.aliases a = none)
    (hab : a ≠ b) (hac : a ≠ c) (hae : a ≠ "")
    (hreg : has st0 a = true) :
    has st2 c = true ∧
    eval (fuel + 1) st2 (.getT c) = eval (fuel + 1) st2 (.getT a) := by
  have hw1 : resolveAliasTarget (st0.aliases.length + 1) st0.aliases a =
      some a := by
    simp [resolveAliasTarget, ha]
  have hst1 : st1 = { st0 with aliases := setA st0.aliases b a } := by
    have := h1
    rw [aliasRegister, hw1, Option.map_some'] at this
    exact (Option.some.inj this).symm
  have hal1 : st1.aliases = setA st0.aliases b a := by rw [hst1]
  have ha1 : lookupA st1.aliases a = none := by
    rw [hal1, lookupA_setA_ne _ _ _ _ hab]
    exact ha
  have hb1 : lookupA st1.aliases b = some a := by
    rw [hal1]; exact lookupA_setA_eq _ _ _
  obtain ⟨n, hn⟩ : ∃ n, st1.aliases.length = n + 1 := by
    rw [hal1]
    cases hsa : setA st0.aliases b a with
    | nil => exact absurd hsa (setA_ne_nil _ _ _)
    | cons hd tl => exact ⟨tl.length, by simp⟩
  have hw2 : resolveAliasTarget (st1.aliases.length + 1) st1.aliases b =
      some a := by
    rw [hn]
    simp only [resolveAliasTarget, hb1, ha1]
  have hst2 : st2 = { st1 with aliases := setA st1.aliases c a } := by
    have := h2
    rw [aliasRegister, hw2, Option.map_some'] at this
    exact (Option.some.inj this).symm
  have hal2 : st2.aliases = setA st1.aliases c a := by rw [hst2]
  have hc2 : lookupA st2.aliases c = some a := by
    rw [hal2]; exact lookupA_setA_eq _ _ _
  have ha2 : lookupA st2.aliases a = none := by
    rw [hal2, lookupA_setA_ne _ _ _ _ hac]
    exact ha1
  have hhc : has st2 c = true := by simp [has, hc2]
  have hbi2 : st2.bindings = st0.bindings ∧ st2.instances = st0.instances := by
    rw [hst2, hst1]
    exact ⟨rfl, rfl⟩
  have hha : has st2 a = true := by
    have h0 := hreg
    simp only [has, ha, Option.isSome_none, Bool.or_false] at h0
    simp only [has, hbi2.1, hbi2.2, ha2, Option.isSome_none, Bool.or_false]
    exact h0
  have hresc : resolveIdentifier st2 c = a := by
    simp [resolveIdentifier, hc2, hae]
  have hresa : resolveIdentifier st2 a = a := by
    simp [resolveIdentifier, ha2]
  exact ⟨hhc, get_congr fuel st2 c a hhc hha (by rw [hresc, hresa])⟩

theorem alias_transitive_flattening_witness :
    has (⟨[], [("a", .num 2)], [("b", "a"), ("c", "a")], 0, []⟩ : State) "c" =
      true ∧
    eval 1 (⟨[], [("a", .num 2)], [("b", "a"), ("c", "a")], 0, []⟩ : State)
        (.getT "c") =
      eval 1 (⟨[], [("a", .num 2)], [("b", "a"), ("c", "a")], 0, []⟩ : State)
        (.getT "a") :=
  alias_transitive_flattening 0
    (⟨[], [("a", .num 2)], [], 0, []⟩ : State)
    (⟨[], [("a", .num 2)], [("b", "a")], 0, []⟩ : State)
    (⟨[], [("a", .num 2)], [("b", "a"), ("c", "a")], 0, []⟩ : State)
    "a" "b" "c" rfl rfl rfl (by decide) (by decide) (by decide) rfl

/-- Splitting never yields an empty list of names. -/
theorem splitCommasAux_ne_nil : ∀ (l acc : List Char), splitCommasAux l acc ≠ [] := by
  intro l
  induction l with
  | nil => intro acc; simp [splitCommasAux]
  | cons c rest ih =>
      intro acc
      by_cases h : c = ',' <;> simp [splitCommasAux, h, ih]

/-- C6 (amended): `construct` takes its parameter list from the first
class in the prototype chain - starting at the given class itself - whose
source declares an explicit constructor, and a constructor-less subtype
defers to its supertype.  When NO class in the chain declares one,
`firstExplicitConstructor` returns the original class and the parameter
list is extracted from that class's own source text, which is empty
exactly when that text matches none of the extraction patterns.  The
claim's "treated as empty" is therefore wrong for a constructor-less
class whose body still matches a pattern, e.g. one with a parenthesised
method (see the counterexample). -/
theorem first_explicit_constructor_search :
    (∀ (cid : Nat) (t : String) (p : Option JSClass),
      firstExplicitConstructor (.decl cid (.classCtor t) p) =
        .decl cid (.classCtor t) p) ∧
    (∀ (cid : Nat) (src : CallableSource) (p : JSClass),
      isExplicitCtorSource src = false →
      (firstExplicitConstructorAux p).isSome = true →
      firstExplicitConstructor (.decl cid src (some p)) =
        firstExplicitConstructor p) ∧
    (∀ (c : JSClass), firstExplicitConstructorAux c = none →
      firstExplicitConstructor c = c ∧
      constructParamNames c = extractParameterNames (sourceOfClass c)) ∧
    (∀ (src : CallableSource),
      extractParameterNames src = [] ↔ src = .unparseable) := by
  refine ⟨?_, ?_, ?_, ?_⟩
  · intro cid t p
    rw [firstExplicitConstructor, firstExplicitConstructorAux.eq_def]
    simp [isExplicitCtorSource]
  · intro cid src p hsrc haux
    cases hone : firstExplicitConstructorAux p with
    | none => rw [hone] at haux; exact absurd haux (by simp)
    | some d =>
        simp [firstExplicitConstructor, firstExplicitConstructorAux, hsrc, hone]
  · intro c hnone
    constructor
    · simp [firstExplicitConstructor, hnone]
    · simp [constructParamNames, firstExplicitConstructor, hnone]
  · intro src
    constructor
    · intro h
      cases src with
      | unparseable => rfl
      | classCtor t =>
          exact absurd h
            (by simpa [extractParameterNames, capturedParameterText]
              using splitCommasAux_ne_nil (cleanParameterText t) [])
      | parenCall t =>
          exact absurd h
            (by simpa [extractParameterNames, capturedParameterText]
              using splitCommasAux_ne_nil (cleanParameterText t) [])
      | bareArrow t =>
          exact absurd h
            (by simpa [extractParameterNames, capturedParameterText]
              using splitCommasAux_ne_nil (cleanParameterText t) [])
      | parenArrow t =>
          exact absurd h
            (by simpa [extractParameterNames, capturedParameterText]
              using splitCommasAux_ne_nil (cleanParameterText t) [])
      | functionDecl t =>
          exact absurd h
            (by simpa [extractParameterNames, capturedParameterText]
              using splitCommasAux_ne_nil (cleanParameterText t) [])
    · intro h; rw [h]; rfl

theorem first_explicit_constructor_search_witness :
    firstExplicitConstructor
        (.decl 1 (.parenCall "q") (some (.decl 0 (.classCtor "a,b") none))) =
      firstExplicitConstructor (.decl 0 (.classCtor "a,b") none) ∧
    firstExplicitConstructor (.decl 2 .unparseable none) =
      .decl 2 .unparseable none ∧
    constructParamNames (.decl 2 .unparseable none) =
      extractParameterNames (sourceOfClass (.decl 2 .unparseable none)) :=
  ⟨first_explicit_constructor_search.2.1 1 (.parenCall "q")
     (.decl 0 (.classCtor "a,b") none) rfl rfl,
   (first_explicit_constructor_search.2.2.1 (.decl 2 .unparseable none) rfl).1,
   (first_explicit_constructor_search.2.2.1 (.decl 2 .unparseable none) rfl).2⟩

theorem ctorless_class_method_params_cex :
    firstExplicitConstructorAux (.decl 0 (.parenCall "x") none) = none ∧
    constructParamNames (.decl 0 (.parenCall "x") none) = ["x"] ∧
    (["x"] : List String) ≠ [] :=
  ⟨rfl, rfl, by simp⟩

/-- One-step unfolding: resolving an empty name list. -/
theorem eval_resolveParamsT_nil (fuel : Nat) (st : State)
    (params : List (String × Value)) :
    eval (fuel + 1) st (.resolveParamsT [] params) = (.ok (.values []), st) := by
  simp [eval]

/-- One-step unfolding: resolving a name list from the results of its
head and tail. -/
theorem eval_resolveParamsT_cons (fuel : Nat) (st st' st2 : State) (n : String)
    (rest : List String) (params : List (String × Value)) (v : Value)
    (vs : List Value)
    (h1 : eval fuel st (.resolveParamT n params) = (.ok (.value v), st'))
    (h2 : eval fuel st' (.resolveParamsT rest params) = (.ok (.values vs), st2)) :
    eval (fuel + 1) st (.resolveParamsT (n :: rest) params) =
      (.ok (.values (v :: vs)), st2) := by
  simp only [eval, h1, h2]

/-- One-step unfolding: a name that is neither an explicit parameter nor
resolvable through the container yields the absence marker. -/
theorem eval_resolveParamT_absent (fuel : Nat) (st : State) (n : String)
    (params : List (String × Value)) (h1 : lookupA params n = none)
    (h2 : has st n = false) :
    eval (fuel + 1) st (.resolveParamT n params) = (.ok (.value .undef), st) := by
  simp [eval, h1, h2]

/-- One-step unfolding: `get` on an identifier resolving to itself with a
cached instance returns the instance and changes nothing. -/
theorem eval_getT_instance (fuel : Nat) (st : State) (i : String) (v : Value)
    (hhas : has st i = true) (hres : resolveIdentifier st i = i)
    (hi : lookupA st.instances i = some v) :
    eval (fuel + 1) st (.getT i) = (.ok (.value v), st) := by
  simp [eval, hhas, hres, hi]

/-- One-step unfolding: `get` on a singleton binding promotes the
invocation result to an instance and deletes the binding. -/
theorem eval_getT_promote (fuel : Nat) (st st' : State) (i : String)
    (b : Binding) (v : Value)
    (hhas : has st i = true) (hres : resolveIdentifier st i = i)
    (hi : lookupA st.instances i = none)
    (hb : lookupA st.bindings i = some b) (hs : b.singleton = true)
    (hinv : eval fuel st (.invokeT b.factory [] none) = (.ok (.value v), st')) :
    eval (fuel + 1) st (.getT i) =
      (.ok (.value v), createSingletonFromBinding st' i v) := by
  simp only [eval, hhas, if_true, hres, hi, hb, hinv, hs]

/-- One-step unfolding: invoking a user factory resolves its declared
parameter names, logs the invocation, and applies the body. -/
theorem eval_invokeT_fnF (fuel : Nat) (st st' : State) (fid : Nat)
    (src : CallableSource) (body : FnBody) (params : List (String × Value))
    (args : List Value)
    (hrp : eval fuel st (.resolveParamsT (extractParameterNames src) params) =
      (.ok (.values args), st')) :
    eval (fuel + 1) st (.invokeT (.fnF fid src body) params none) =
      (.ok (.value (applyBody body args (appendLog st' (.factoryInvoked fid))).1),
       (applyBody body args (appendLog st' (.factoryInvoked fid))).2) := by
  simp only [eval, Option.getD, factorySource, hrp]

/-- One-step unfolding: invoking a `bindConstructor` closure resolves the
closure's captured-empty-string parameter list, then constructs. -/
theorem eval_invokeT_ctorF (fuel : Nat) (st st' : State) (c : JSClass)
    (args : List Value) (res : Except Err EvalRes × State)
    (hrp : eval fuel st
        (.resolveParamsT (extractParameterNames (.parenCall "")) []) =
      (.ok (.values args), st'))
    (hc : eval fuel st' (.constructT c []) = res) :
    eval (fuel + 1) st (.invokeT (.ctorF c) [] none) = res := by
  simp only [eval, Option.getD, factorySource, hrp, hc]

/-- One-step unfolding: construction from resolved arguments allocates a
fresh object recording the named arguments and logs the construction. -/
theorem eval_constructT_step (fuel : Nat) (st st' : State) (c : JSClass)
    (params : List (String × Value)) (args : List Value)
    (hrp : eval fuel st (.resolveParamsT (constructParamNames c) params) =
      (.ok (.values args), st')) :
    eval (fuel + 1) st (.constructT c params) =
      (.ok (.value (.obj st'.nextId ((constructParamNames c).zip args))),
       { st' with nextId := st'.nextId + 1,
                  log := st'.log ++ [.constructed (classId c)] }) := by
  simp only [eval, hrp]

/-- `resolveIdentifier` depends only on the alias map. -/
theorem resolveIdentifier_congr (st1 st2 : State) (i : String)
    (h : st1.aliases = st2.aliases) :
    resolveIdentifier st1 i = resolveIdentifier st2 i := by
  simp only [resolveIdentifier, h]

/-- One-step unfolding: `get` on an identifier whose resolved root has a
cached instance returns the instance and changes nothing. -/
theorem eval_getT_cached (fuel : Nat) (st : State) (i : String) (v : Value)
    (hhas : has st i = true)
    (hi : lookupA st.instances (resolveIdentifier st i) = some v) :
    eval (fuel + 1) st (.getT i) = (.ok (.value v), st) := by
  simp [eval, hhas, hi]

/-- Singleton promotion is one-way and caches: whenever `get i` succeeds
through a singleton binding at the resolved root, the produced value is
stored as an instance, the binding is deleted, and every later `get i`
returns that same value with the state (hence also the invocation log)
unchanged.  This holds with no assumption on the factory. -/
theorem singleton_promotion_caches (fuel : Nat) (st st' : State) (i : String)
    (b : Binding) (v : Value)
    (hi : lookupA st.instances (resolveIdentifier st i) = none)
    (hb : lookupA st.bindings (resolveIdentifier st i) = some b)
    (hs : b.singleton = true)
    (hsucc : eval (fuel + 1) st (.getT i) = (.ok (.value v), st')) :
    lookupA st'.instances (resolveIdentifier st i) = some v ∧
    lookupA st'.bindings (resolveIdentifier st i) = none ∧
    st'.aliases = st.aliases ∧
    (∀ fuel2 : Nat, eval (fuel2 + 1) st' (.getT i) = (.ok (.value v), st')) := by
  by_cases hhas : has st i
  · simp only [eval, hhas, if_true, hi, hb] at hsucc
    cases hres : eval fuel st (.invokeT b.factory [] none) with
    | mk r stinv =>
      rw [hres] at hsucc
      cases r with
      | error e => simp at hsucc
      | ok res =>
        cases res with
        | values vs => simp at hsucc
        | value v0 =>
          simp only [hs, if_true] at hsucc
          rw [Prod.mk.injEq] at hsucc
          obtain ⟨h1, h2⟩ := hsucc
          obtain rfl : v = v0 := by simpa using h1.symm
          subst h2
          have halias : stinv.aliases = st.aliases := by
            have h0 := eval_aliases_eq fuel st (.invokeT b.factory [] none)
            rw [hres] at h0
            exact h0
          have hal' : (createSingletonFromBinding stinv
              (resolveIdentifier st i) v).aliases = st.aliases := by
            simpa [createSingletonFromBinding] using halias
          have hresid : resolveIdentifier
              (createSingletonFromBinding stinv (resolveIdentifier st i) v) i =
              resolveIdentifier st i :=
            resolveIdentifier_congr _ st i hal'
          have hinst' : lookupA (createSingletonFromBinding stinv
              (resolveIdentifier st i) v).instances (resolveIdentifier st i) =
              some v := by
            simp [createSingletonFromBinding]
          have hhas' : has (createSingletonFromBinding stinv
              (resolveIdentifier st i) v) i = true := by
            cases hai : lookupA st.aliases i with
            | some t => simp [has, hal', hai]
            | none =>
                have hridi : resolveIdentifier st i = i := by
                  simp [resolveIdentifier, hai]
                rw [hridi] at hinst'
                simp [has, hridi, hinst']
          refine ⟨hinst', by simp [createSingletonFromBinding], hal', ?_⟩
          intro fuel2
          exact eval_getT_cached fuel2 _ i v hhas' (by rw [hresid]; exact hinst')
  · simp [eval, hhas] at hsucc

/-- Resolving a list of parameter names none of which is an explicit
parameter or resolvable through the container yields the absence marker
for each name and leaves the state unchanged. -/
theorem resolveParams_all_absent :
    ∀ (names : List String) (fuel : Nat) (st : State)
      (params : List (String × Value)),
    (∀ nm ∈ names, lookupA params nm = none ∧ has st nm = false) →
    names.length < fuel →
    eval fuel st (.resolveParamsT names params) =
      (.ok (.values (names.map (fun _ => Value.undef))), st) := by
  intro names
  induction names with
  | nil =>
      intro fuel st params _ hf
      obtain ⟨f, rfl⟩ : ∃ f, fuel = f + 1 := ⟨fuel - 1, by omega⟩
      exact eval_resolveParamsT_nil f st params
  | cons n rest ih =>
      intro fuel st params hall hf
      simp only [List.length_cons] at hf
      obtain ⟨f, rfl⟩ : ∃ f, fuel = f + 1 := ⟨fuel - 1, by omega⟩
      obtain ⟨f2, hf2⟩ : ∃ f2, f = f2 + 1 := ⟨f - 1, by omega⟩
      have hn := hall n (by simp)
      have h1 : eval f st (.resolveParamT n params) = (.ok (.value .undef), st) := by
        rw [hf2]
        exact eval_resolveParamT_absent f2 st n params hn.1 hn.2
      have h2 := ih f st params (fun nm hm => hall nm (by simp [hm])) (by omega)
      rw [eval_resolveParamsT_cons f st st st n rest params .undef _ h1 h2]
      rfl

/-- Full trace of the first `get i` after `bindFactory(i, f, true)` when
`f`'s declared parameter names are not resolvable through the container:
`f` is invoked exactly once (one `factoryInvoked` ghost-log entry), its
value is promoted and the binding deleted. -/
theorem factory_first_get_trace
    (st0 : State) (i : String) (fid : Nat) (src : CallableSource)
    (body : FnBody) (f3 : Nat) (vr : Value) (str : State)
    (ha : lookupA st0.aliases i = none)
    (hi : lookupA st0.instances i = none)
    (hnames : (extractParameterNames src).all
      (fun nm => !(has (bindFactory st0 i (.fnF fid src body) true) nm)) = true)
    (hf : (extractParameterNames src).length < f3)
    (happly : applyBody body
        ((extractParameterNames src).map (fun _ => Value.undef))
        (appendLog (bindFactory st0 i (.fnF fid src body) true)
          (.factoryInvoked fid)) = (vr, str)) :
    eval (f3 + 1 + 1) (bindFactory st0 i (.fnF fid src body) true) (.getT i) =
      (.ok (.value vr), createSingletonFromBinding str i vr) ∧
    lookupA (createSingletonFromBinding str i vr).bindings i = none ∧
    lookupA (createSingletonFromBinding str i vr).instances i = some vr ∧
    (createSingletonFromBinding str i vr).log =
      (bindFactory st0 i (.fnF fid src body) true).log ++
        [.factoryInvoked fid] ∧
    (∀ fuel2 : Nat,
      eval (fuel2 + 1) (createSingletonFromBinding str i vr) (.getT i) =
        (.ok (.value vr), createSingletonFromBinding str i vr)) := by
  have hb1 : lookupA (bindFactory st0 i (.fnF fid src body) true).bindings i =
      some ⟨.fnF fid src body, true⟩ := by
    simp [bindFactory]
  have hhas : has (bindFactory st0 i (.fnF fid src body) true) i = true := by
    simp [has, hb1]
  have hi1 : lookupA (bindFactory st0 i (.fnF fid src body) true).instances i =
      none := by
    simpa [bindFactory] using hi
  have ha1 : lookupA (bindFactory st0 i (.fnF fid src body) true).aliases i =
      none := by
    simpa [bindFactory] using ha
  have hres1 : resolveIdentifier (bindFactory st0 i (.fnF fid src body) true) i =
      i := by
    simp [resolveIdentifier, ha1]
  simp only [List.all_eq_true] at hnames
  have hparams : ∀ nm ∈ extractParameterNames src,
      lookupA ([] : List (String × Value)) nm = none ∧
      has (bindFactory st0 i (.fnF fid src body) true) nm = false := by
    intro nm hm
    exact ⟨rfl, by simpa using hnames nm hm⟩
  have hrp := resolveParams_all_absent (extractParameterNames src) f3
    (bindFactory st0 i (.fnF fid src body) true) [] hparams hf
  have hinvoke := eval_invokeT_fnF f3
    (bindFactory st0 i (.fnF fid src body) true)
    (bindFactory st0 i (.fnF fid src body) true) fid src body []
    ((extractParameterNames src).map (fun _ => Value.undef)) hrp
  rw [happly] at hinvoke
  have hget1 := eval_getT_promote (f3 + 1)
    (bindFactory st0 i (.fnF fid src body) true) str i
    ⟨.fnF fid src body, true⟩ vr hhas hres1 hi1 hb1 rfl hinvoke
  have hlog : str.log =
      (bindFactory st0 i (.fnF fid src body) true).log ++
        [.factoryInvoked fid] := by
    have h0 := applyBody_log body
      ((extractParameterNames src).map (fun _ => Value.undef))
      (appendLog (bindFactory st0 i (.fnF fid src body) true)
        (.factoryInvoked fid))
    rw [happly] at h0
    simpa [appendLog] using h0
  have hai2 : str.aliases =
      (bindFactory st0 i (.fnF fid src body) true).aliases := by
    have h0 := applyBody_aliases body
      ((extractParameterNames src).map (fun _ => Value.undef))
      (appendLog (bindFactory st0 i (.fnF fid src body) true)
        (.factoryInvoked fid))
    rw [happly] at h0
    simpa [appendLog] using h0
  have hinst2 : lookupA (createSingletonFromBinding str i vr).instances i =
      some vr := by
    simp [createSingletonFromBinding]
  have hhas2 : has (createSingletonFromBinding str i vr) i = true := by
    simp [has, hinst2]
  have hres2 : resolveIdentifier (createSingletonFromBinding str i vr) i = i := by
    have : (createSingletonFromBinding str i vr).aliases = str.aliases := rfl
    simp [resolveIdentifier, this, hai2, ha1]
  refine ⟨hget1, by simp [createSingletonFromBinding], hinst2,
    by simp [createSingletonFromBinding, hlog], ?_⟩
  intro fuel2
  exact eval_getT_instance fuel2 (createSingletonFromBinding str i vr) i vr
    hhas2 hres2 hinst2

/-- C7 (amended): after `bindFactory(i, f, singleton := true)`, `f` is
invoked exactly once across any number of `get i` calls, in two parts.
(1) In general, whenever a `get i` succeeds through a singleton binding
at the resolved root, the value is cached, the binding deleted, and every
later `get i` returns that same cached value with the state - in
particular the invocation log - unchanged, so `f` is never invoked after
the first successful `get i`.  (2) When additionally `i` has no alias
entry and no instance and `f`'s declared parameter names are not
resolvable through the container, the first `get i` succeeds and invokes
`f` exactly once: the ghost log grows by exactly one `factoryInvoked`
entry.  The claim as stated, with no proviso at all, is false: a factory
whose parameter resolution re-enters `get i` recurses forever, so the
first `get i` fails with `f` applied zero times, not once (see the
counterexample). -/
theorem factory_singleton_invoked_once :
    (∀ (fuel : Nat) (st st' : State) (i : String) (b : Binding) (v : Value),
      lookupA st.instances (resolveIdentifier st i) = none →
      lookupA st.bindings (resolveIdentifier st i) = some b →
      b.singleton = true →
      eval (fuel + 1) st (.getT i) = (.ok (.value v), st') →
      lookupA st'.instances (resolveIdentifier st i) = some v ∧
      lookupA st'.bindings (resolveIdentifier st i) = none ∧
      (∀ fuel2 : Nat,
        eval (fuel2 + 1) st' (.getT i) = (.ok (.value v), st'))) ∧
    (∀ (st0 : State) (i : String) (fid : Nat) (src : CallableSource)
       (body : FnBody) (f3 : Nat) (vr : Value) (str : State),
      lookupA st0.aliases i = none →
      lookupA st0.instances i = none →
      (extractParameterNames src).all
        (fun nm => !(has (bindFactory st0 i (.fnF fid src body) true) nm)) =
          true →
      (extractParameterNames src).length < f3 →
      applyBody body ((extractParameterNames src).map (fun _ => Value.undef))
          (appendLog (bindFactory st0 i (.fnF fid src body) true)
            (.factoryInvoked fid)) = (vr, str) →
      eval (f3 + 1 + 1) (bindFactory st0 i (.fnF fid src body) true)
          (.getT i) =
        (.ok (.value vr), createSingletonFromBinding str i vr) ∧
      (createSingletonFromBinding str i vr).log =
        (bindFactory st0 i (.fnF fid src body) true).log ++
          [.factoryInvoked fid]) :=
  ⟨fun fuel st st' i b v h1 h2 h3 h4 =>
    (fun h => ⟨h.1, h.2.1, h.2.2.2⟩)
      (singleton_promotion_caches fuel st st' i b v h1 h2 h3 h4),
   fun st0 i fid src body f3 vr str ha hi hnames hf happly =>
    (fun h => ⟨h.1, h.2.2.2.1⟩)
      (factory_first_get_trace st0 i fid src body f3 vr str ha hi hnames hf
        happly)⟩

theorem factory_singleton_invoked_once_witness :
    (lookupA (⟨[], [("f", .num 3)], [], 0,
        [.factoryInvoked 9]⟩ : State).instances
      (resolveIdentifier (⟨[("f", ⟨.fnF 9 (.parenCall "") (.constV (.num 3)),
        true⟩)], [], [], 0, []⟩ : State) "f") = some (.num 3) ∧
    lookupA (⟨[], [("f", .num 3)], [], 0,
        [.factoryInvoked 9]⟩ : State).bindings
      (resolveIdentifier (⟨[("f", ⟨.fnF 9 (.parenCall "") (.constV (.num 3)),
        true⟩)], [], [], 0, []⟩ : State) "f") = none ∧
    (∀ fuel2 : Nat,
      eval (fuel2 + 1) (⟨[], [("f", .num 3)], [], 0,
          [.factoryInvoked 9]⟩ : State) (.getT "f") =
        (.ok (.value (.num 3)),
         (⟨[], [("f", .num 3)], [], 0, [.factoryInvoked 9]⟩ : State)))) ∧
    (eval 4 (⟨[("f", ⟨.fnF 9 (.parenCall "") (.constV (.num 3)), true⟩)],
        [], [], 0, []⟩ : State) (.getT "f") =
      (.ok (.value (.num 3)),
       (⟨[], [("f", .num 3)], [], 0, [.factoryInvoked 9]⟩ : State)) ∧
    (⟨[], [("f", .num 3)], [], 0, [.factoryInvoked 9]⟩ : State).log =
      ([] : List LogEntry) ++ [.factoryInvoked 9]) :=
  ⟨factory_singleton_invoked_once.1 3
    (⟨[("f", ⟨.fnF 9 (.parenCall "") (.constV (.num 3)), true⟩)],
      [], [], 0, []⟩ : State)
    (⟨[], [("f", .num 3)], [], 0, [.factoryInvoked 9]⟩ : State) "f"
    ⟨.fnF 9 (.parenCall "") (.constV (.num 3)), true⟩ (.num 3)
    rfl rfl rfl rfl,
   factory_singleton_invoked_once.2 emptyState "f" 9 (.parenCall "")
    (.constV (.num 3)) 2 (.num 3)
    (⟨[("f", ⟨.fnF 9 (.parenCall "") (.constV (.num 3)), true⟩)],
      [], [], 0, [.factoryInvoked 9]⟩ : State)
    rfl rfl rfl (by decide) rfl⟩

theorem factory_reentrant_never_applied_cex :
    (eval 20 (bindFactory emptyState "i"
        (.fnF 3 (.bareArrow "i") (.constV (.num 1))) true) (.getT "i")).1 =
      .error .outOfFuel ∧
    (eval 20 (bindFactory emptyState "i"
        (.fnF 3 (.bareArrow "i") (.constV (.num 1))) true) (.getT "i")).2.log =
      [] :=
  ⟨rfl, rfl⟩

/-- Full trace of the first `get i` after `bindConstructor(i, T, true)`
when neither the empty string (the closure's captured parameter name) nor
any of `T`'s effective constructor parameter names is resolvable through
the container: exactly one object is constructed (one `constructed`
ghost-log entry), promoted, and the binding deleted. -/
theorem constructor_first_get_trace
    (st0 : State) (i : String) (c : JSClass) (g : Nat) (vobj : Value)
    (stc : State)
    (ha : lookupA st0.aliases i = none)
    (hi : lookupA st0.instances i = none)
    (hemp : has (bindConstructor st0 i c true) "" = false)
    (hnames : (constructParamNames c).all
      (fun nm => !(has (bindConstructor st0 i c true) nm)) = true)
    (hg : (constructParamNames c).length + 1 ≤ g)
    (hvobj : Value.obj (bindConstructor st0 i c true).nextId
        ((constructParamNames c).zip
          ((constructParamNames c).map (fun _ => Value.undef))) = vobj)
    (hstc : { bindConstructor st0 i c true with
                nextId := (bindConstructor st0 i c true).nextId + 1,
                log := (bindConstructor st0 i c true).log ++
                  [.constructed (classId c)] } = stc) :
    eval (g + 1 + 1 + 1) (bindConstructor st0 i c true) (.getT i) =
      (.ok (.value vobj), createSingletonFromBinding stc i vobj) ∧
    lookupA (createSingletonFromBinding stc i vobj).bindings i = none ∧
    lookupA (createSingletonFromBinding stc i vobj).instances i = some vobj ∧
    (createSingletonFromBinding stc i vobj).log =
      (bindConstructor st0 i c true).log ++ [.constructed (classId c)] ∧
    (∀ fuel2 : Nat,
      eval (fuel2 + 1) (createSingletonFromBinding stc i vobj) (.getT i) =
        (.ok (.value vobj), createSingletonFromBinding stc i vobj)) := by
  have hb1 : lookupA (bindConstructor st0 i c true).bindings i =
      some ⟨.ctorF c, true⟩ := by
    simp [bindConstructor]
  have hhas : has (bindConstructor st0 i c true) i = true := by
    simp [has, hb1]
  have hi1 : lookupA (bindConstructor st0 i c true).instances i = none := by
    simpa [bindConstructor] using hi
  have ha1 : lookupA (bindConstructor st0 i c true).aliases i = none := by
    simpa [bindConstructor] using ha
  have hres1 : resolveIdentifier (bindConstructor st0 i c true) i = i := by
    simp [resolveIdentifier, ha1]
  have hext : extractParameterNames (.parenCall "") = [""] := rfl
  have hparams1 : ∀ nm ∈ extractParameterNames (.parenCall ""),
      lookupA ([] : List (String × Value)) nm = none ∧
      has (bindConstructor st0 i c true) nm = false := by
    intro nm hm
    rw [hext] at hm
    simp only [List.mem_singleton] at hm
    subst hm
    exact ⟨rfl, hemp⟩
  simp only [List.all_eq_true] at hnames
  have hparams2 : ∀ nm ∈ constructParamNames c,
      lookupA ([] : List (String × Value)) nm = none ∧
      has (bindConstructor st0 i c true) nm = false := by
    intro nm hm
    exact ⟨rfl, by simpa using hnames nm hm⟩
  have hrp1 := resolveParams_all_absent (extractParameterNames (.parenCall ""))
    (g + 1) (bindConstructor st0 i c true) [] hparams1
    (by rw [hext]; show 1 < g + 1; omega)
  have hrp2 := resolveParams_all_absent (constructParamNames c) g
    (bindConstructor st0 i c true) [] hparams2 (by omega)
  have hcon := eval_constructT_step g (bindConstructor st0 i c true)
    (bindConstructor st0 i c true) c []
    ((constructParamNames c).map (fun _ => Value.undef)) hrp2
  rw [hvobj, hstc] at hcon
  have hinv := eval_invokeT_ctorF (g + 1) (bindConstructor st0 i c true)
    (bindConstructor st0 i c true) c
    ((extractParameterNames (.parenCall "")).map (fun _ => Value.undef))
    ((.ok (.value vobj), stc)) hrp1 hcon
  have hget1 := eval_getT_promote (g + 1 + 1) (bindConstructor st0 i c true)
    stc i ⟨.ctorF c, true⟩ vobj hhas hres1 hi1 hb1 rfl hinv
  have halc : stc.aliases = (bindConstructor st0 i c true).aliases := by
    rw [← hstc]
  have hlogc : stc.log =
      (bindConstructor st0 i c true).log ++ [.constructed (classId c)] := by
    rw [← hstc]
  have hinst2 : lookupA (createSingletonFromBinding stc i vobj).instances i =
      some vobj := by
    simp [createSingletonFromBinding]
  have hhas2 : has (createSingletonFromBinding stc i vobj) i = true := by
    simp [has, hinst2]
  have hres2 : resolveIdentifier (createSingletonFromBinding stc i vobj) i =
      i := by
    have h0 : (createSingletonFromBinding stc i vobj).aliases = stc.aliases := rfl
    simp [resolveIdentifier, h0, halc, ha1]
  refine ⟨hget1, by simp [createSingletonFromBinding], hinst2,
    by simp [createSingletonFromBinding, hlogc], ?_⟩
  intro fuel2
  exact eval_getT_instance fuel2 (createSingletonFromBinding stc i vobj) i vobj
    hhas2 hres2 hinst2

/-- C2 (amended): after `bindConstructor(i, T, singleton := true)`, the
first successful `get i` constructs once and the transition is one-way,
in two parts.  (1) In general, whenever a `get i` succeeds through a
singleton binding at the resolved root, the produced value is cached as
an instance, the binding entry is deleted, and every later `get i`
returns that same value (identity-equal) with the state unchanged - the
binding-to-instance transition is one-way.  (2) When additionally `i` has
no alias entry and no instance, the empty string is unregistered (the
`bindConstructor` closure's extracted parameter list is `[""]`), and
`T`'s effective constructor parameter names are not resolvable through
the container, the first `get i` succeeds and constructs a value exactly
once: the ghost log grows by exactly one `constructed` entry.  The claim
as stated, with no proviso at all, is false: a constructor whose
parameter resolution re-enters `get i` recurses forever, so the first
`get i` fails and constructs nothing (see the counterexample). -/
theorem constructor_singleton_promotion :
    (∀ (fuel : Nat) (st st' : State) (i : String) (b : Binding) (v : Value),
      lookupA st.instances (resolveIdentifier st i) = none →
      lookupA st.bindings (resolveIdentifier st i) = some b →
      b.singleton = true →
      eval (fuel + 1) st (.getT i) = (.ok (.value v), st') →
      lookupA st'.instances (resolveIdentifier st i) = some v ∧
      lookupA st'.bindings (resolveIdentifier st i) = none ∧
      (∀ fuel2 : Nat,
        eval (fuel2 + 1) st' (.getT i) = (.ok (.value v), st'))) ∧
    (∀ (st0 : State) (i : String) (c : JSClass) (g : Nat) (vobj : Value)
       (stc : State),
      lookupA st0.aliases i = none →
      lookupA st0.instances i = none →
      has (bindConstructor st0 i c true) "" = false →
      (constructParamNames c).all
        (fun nm => !(has (bindConstructor st0 i c true) nm)) = true →
      (constructParamNames c).length + 1 ≤ g →
      Value.obj (bindConstructor st0 i c true).nextId
        ((constructParamNames c).zip
          ((constructParamNames c).map (fun _ => Value.undef))) = vobj →
      { bindConstructor st0 i c true with
          nextId := (bindConstructor st0 i c true).nextId + 1,
          log := (bindConstructor st0 i c true).log ++
            [.constructed (classId c)] } = stc →
      eval (g + 1 + 1 + 1) (bindConstructor st0 i c true) (.getT i) =
        (.ok (.value vobj), createSingletonFromBinding stc i vobj) ∧
      (createSingletonFromBinding stc i vobj).log =
        (bindConstructor st0 i c true).log ++ [.constructed (classId c)]) :=
  ⟨fun fuel st st' i b v h1 h2 h3 h4 =>
    (fun h => ⟨h.1, h.2.1, h.2.2.2⟩)
      (singleton_promotion_caches fuel st st' i b v h1 h2 h3 h4),
   fun st0 i c g vobj stc ha hi hemp hnames hg hvobj hstc =>
    (fun h => ⟨h.1, h.2.2.2.1⟩)
      (constructor_first_get_trace st0 i c g vobj stc ha hi hemp hnames hg
        hvobj hstc)⟩

theorem constructor_singleton_promotion_witness :
    (lookupA (⟨[], [("svc", .obj 0 [("dep", .undef)])], [], 1,
        [.constructed 3]⟩ : State).instances
      (resolveIdentifier (⟨[("svc", ⟨.ctorF (.decl 3 (.classCtor "dep") none),
        true⟩)], [], [], 0, []⟩ : State) "svc") =
        some (.obj 0 [("dep", .undef)]) ∧
    lookupA (⟨[], [("svc", .obj 0 [("dep", .undef)])], [], 1,
        [.constructed 3]⟩ : State).bindings
      (resolveIdentifier (⟨[("svc", ⟨.ctorF (.decl 3 (.classCtor "dep") none),
        true⟩)], [], [], 0, []⟩ : State) "svc") = none ∧
    (∀ fuel2 : Nat,
      eval (fuel2 + 1) (⟨[], [("svc", .obj 0 [("dep", .undef)])], [], 1,
          [.constructed 3]⟩ : State) (.getT "svc") =
        (.ok (.value (.obj 0 [("dep", .undef)])),
         (⟨[], [("svc", .obj 0 [("dep", .undef)])], [], 1,
           [.constructed 3]⟩ : State)))) ∧
    (eval 5 (⟨[("svc", ⟨.ctorF (.decl 3 (.classCtor "dep") none), true⟩)],
        [], [], 0, []⟩ : State) (.getT "svc") =
      (.ok (.value (.obj 0 [("dep", .undef)])),
       (⟨[], [("svc", .obj 0 [("dep", .undef)])], [], 1,
         [.constructed 3]⟩ : State)) ∧
    (⟨[], [("svc", .obj 0 [("dep", .undef)])], [], 1,
        [.constructed 3]⟩ : State).log =
      ([] : List LogEntry) ++ [.constructed 3]) :=
  ⟨constructor_singleton_promotion.1 4
    (⟨[("svc", ⟨.ctorF (.decl 3 (.classCtor "dep") none), true⟩)],
      [], [], 0, []⟩ : State)
    (⟨[], [("svc", .obj 0 [("dep", .undef)])], [], 1,
      [.constructed 3]⟩ : State) "svc"
    ⟨.ctorF (.decl 3 (.classCtor "dep") none), true⟩
    (.obj 0 [("dep", .undef)]) rfl rfl rfl rfl,
   constructor_singleton_promotion.2 emptyState "svc"
    (.decl 3 (.classCtor "dep") none) 2 (.obj 0 [("dep", .undef)])
    (⟨[("svc", ⟨.ctorF (.decl 3 (.classCtor "dep") none), true⟩)],
      [], [], 1, [.constructed 3]⟩ : State)
    rfl rfl rfl rfl (by decide) rfl rfl⟩

theorem constructor_reentrant_never_built_cex :
    (eval 20 (bindConstructor emptyState "i"
        (.decl 0 (.classCtor "i") none) true) (.getT "i")).1 =
      .error .outOfFuel ∧
    (eval 20 (bindConstructor emptyState "i"
        (.decl 0 (.classCtor "i") none) true) (.getT "i")).2.log = [] ∧
    (eval 20 (bindConstructor emptyState "i"
        (.decl 0 (.classCtor "i") none) true) (.getT "i")).2.nextId = 0 :=
  ⟨rfl, rfl, rfl⟩

/-- A public operation that does not rebind `i` preserves both the stored
instance for `i` and the absence of an alias named `i`. -/
theorem applyOp_instance_stable (fuel : Nat) (st st' : State) (op : Op)
    (i : String) (v : Value)
    (hi : lookupA st.instances i = some v) (ha : lookupA st.aliases i = none)
    (hreb : rebindsIdentifier i op = false)
    (happ : applyOp fuel st op = some st') :
    lookupA st'.instances i = some v ∧ lookupA st'.aliases i = none := by
  cases op with
  | getOp id =>
      obtain rfl : (eval fuel st (.getT id)).2 = st' := by
        simpa [applyOp] using happ
      exact ⟨eval_instances_some fuel st _ i v hi,
        by rw [eval_aliases_eq]; exact ha⟩
  | constructOp c ps =>
      obtain rfl : (eval fuel st (.constructT c ps)).2 = st' := by
        simpa [applyOp] using happ
      exact ⟨eval_instances_some fuel st _ i v hi,
        by rw [eval_aliases_eq]; exact ha⟩
  | invokeOp f ps sig =>
      obtain rfl : (eval fuel st (.invokeT f ps sig)).2 = st' := by
        simpa [applyOp] using happ
      exact ⟨eval_instances_some fuel st _ i v hi,
        by rw [eval_aliases_eq]; exact ha⟩
  | bindInstanceOp j v0 =>
      have hne : i ≠ j := by
        intro h
        simp [rebindsIdentifier, h] at hreb
      obtain rfl : bindInstance st j v0 = st' := by simpa [applyOp] using happ
      exact ⟨by simpa [bindInstance, lookupA_setA_ne _ _ _ _ hne] using hi, ha⟩
  | bindConstructorOp j c s =>
      obtain rfl : bindConstructor st j c s = st' := by simpa [applyOp] using happ
      exact ⟨hi, ha⟩
  | bindFactoryOp j f s =>
      obtain rfl : bindFactory st j f s = st' := by simpa [applyOp] using happ
      exact ⟨hi, ha⟩
  | makeSingletonOp id =>
      obtain rfl : (makeSingleton st id).2 = st' := by simpa [applyOp] using happ
      by_cases hh : has st id
      · by_cases hinst : (lookupA st.instances (resolveIdentifier st id)).isSome
        · simpa [makeSingleton, hh, hinst] using ⟨hi, ha⟩
        · cases hbind : lookupA st.bindings (resolveIdentifier st id) with
          | some b =>
              simp only [makeSingleton, hh, hinst, hbind, if_true, if_false,
                Bool.false_eq_true]
              exact ⟨hi, ha⟩
          | none => simpa [makeSingleton, hh, hinst, hbind] using ⟨hi, ha⟩
      · simpa [makeSingleton, hh] using ⟨hi, ha⟩
  | aliasOp x a =>
      have hne : i ≠ a := by
        intro h
        simp [rebindsIdentifier, h] at hreb
      simp only [applyOp, aliasRegister] at happ
      cases hres : resolveAliasTarget (st.aliases.length + 1) st.aliases x with
      | none => rw [hres] at happ; exact Option.noConfusion happ
      | some t =>
          rw [hres] at happ
          rw [Option.map_some'] at happ
          obtain rfl := Option.some.inj happ
          exact ⟨hi, by simpa [lookupA_setA_ne _ _ _ _ hne] using ha⟩

/-- A history with no rebinding of `i` preserves the stored instance. -/
theorem applyOps_instance_stable (fuel : Nat) : ∀ (ops : List Op)
    (st st' : State) (i : String) (v : Value),
    lookupA st.instances i = some v → lookupA st.aliases i = none →
    ops.all (fun op => !rebindsIdentifier i op) = true →
    applyOps fuel st ops = some st' →
    lookupA st'.instances i = some v ∧ lookupA st'.aliases i = none := by
  intro ops
  induction ops with
  | nil =>
      intro st st' i v hi ha _ happ
      obtain rfl : st = st' := by simpa [applyOps] using happ
      exact ⟨hi, ha⟩
  | cons op rest ih =>
      intro st st' i v hi ha hall happ
      simp only [List.all_cons, Bool.and_eq_true] at hall
      simp only [applyOps] at happ
      cases hop : applyOp fuel st op with
      | none => rw [hop] at happ; exact Option.noConfusion happ
      | some st1 =>
          rw [hop] at happ
          obtain ⟨hi1, ha1⟩ := applyOp_instance_stable fuel st st1 op i v hi ha
            (by simpa using hall.1) hop
          exact ih st1 st' i v hi1 ha1 hall.2 happ

/-- C4 (amended): after `bindInstance(i, v)` on a state where no alias is
registered under the name `i`, every subsequent `get(i)` returns exactly
`v` (same identity) and leaves the state unchanged, no matter how many
times it is called and regardless of interleaved operations that do not
rebind `i` (no `bindInstance(i, _)` and no `alias(_, i)`; interleaved
`bindConstructor`/`bindFactory` on `i` are harmless because the instance
entry shadows bindings).  Without the no-alias proviso the claim as
stated is false: an alias named `i` redirects `get(i)` away from the
stored instance (see the counterexample). -/
theorem instance_binding_stable
    (st0 : State) (i : String) (v : Value) (ops : List Op)
    (fuel fuel2 : Nat) (st' : State)
    (ha : lookupA st0.aliases i = none)
    (hops : ops.all (fun op => !rebindsIdentifier i op) = true)
    (hrun : applyOps fuel (bindInstance st0 i v) ops = some st') :
    eval (fuel2 + 1) st' (.getT i) = (.ok (.value v), st') := by
  obtain ⟨hi', ha'⟩ := applyOps_instance_stable fuel ops (bindInstance st0 i v)
    st' i v (by simp [bindInstance]) (by simpa [bindInstance] using ha)
    hops hrun
  have hhas : has st' i = true := by simp [has, hi']
  have hres : resolveIdentifier st' i = i := by simp [resolveIdentifier, ha']
  simp [eval, hhas, hres, hi']

theorem instance_binding_stable_witness :
    eval 1 (⟨[], [("i", .num 7), ("j", .num 1)], [], 0, []⟩ : State) (.getT "i") =
      (.ok (.value (.num 7)),
       (⟨[], [("i", .num 7), ("j", .num 1)], [], 0, []⟩ : State)) :=
  instance_binding_stable emptyState "i" (.num 7)
    [.bindInstanceOp "j" (.num 1), .makeSingletonOp "z", .getOp "i"] 3 0
    (⟨[], [("i", .num 7), ("j", .num 1)], [], 0, []⟩ : State) rfl rfl rfl

theorem instance_shadowed_by_alias_cex :
    applyOps 5 emptyState [.aliasOp "t" "i", .bindInstanceOp "t" (.num 5),
        .bindInstanceOp "i" (.num 7)] =
      some (⟨[], [("t", .num 5), ("i", .num 7)], [("i", "t")], 0, []⟩ : State) ∧
    (eval 3 (⟨[], [("t", .num 5), ("i", .num 7)], [("i", "t")], 0, []⟩ : State)
        (.getT "i")).1 = .ok (.value (.num 5)) ∧
    (.ok (.value (.num 5)) : Except Err EvalRes) ≠ .ok (.value (.num 7)) :=
  ⟨rfl, rfl, by simp⟩

theorem alias_chain_one_step_cex :
    applyOps 5 emptyState [.aliasOp "x" "a", .aliasOp "y" "x",
        .bindInstanceOp "y" (.num 7), .aliasOp "a" "b", .aliasOp "b" "c"] =
      some (⟨[], [("y", .num 7)],
            [("a", "x"), ("x", "y"), ("b", "y"), ("c", "y")], 0, []⟩ : State) ∧
    (eval 3 (⟨[], [("y", .num 7)],
        [("a", "x"), ("x", "y"), ("b", "y"), ("c", "y")], 0, []⟩ : State)
        (.getT "c")).1 = .ok (.value (.num 7)) ∧
    (eval 3 (⟨[], [("y", .num 7)],
        [("a", "x"), ("x", "y"), ("b", "y"), ("c", "y")], 0, []⟩ : State)
        (.getT "a")).1 = .error .typeError :=
  ⟨rfl, rfl, rfl⟩

end Container
